import Mathlib

/-!
Verification of the OpenPGP.js public-key dispatcher and packet protection
layer (PKESK packet, Secret-Key packet, algorithm dispatcher, PQC KEM
combiner) against its natural-language specification.

Byte strings are modelled as `List Nat` (each element a byte value).
External cryptographic primitives (hashes, ciphers, KEMs, signatures,
randomness) are parameters of the embedded functions, mirroring the fact
that the source consumes them from external crypto libraries.  Fallible
code returns `Except String`, with the source's error messages.
-/

namespace OpenPGP

/-- Byte strings, one `Nat` per octet. -/
abbrev Bytes := List Nat

/-! ## Algorithm registries (`enums.js`; numeric codes per RFC 9580 §9.1 and
draft-ietf-openpgp-pqc-10 §6.1, as listed in the specification). -/

/-- `enums.publicKey` numeric codes. Modelled from the spec: `enums.js` is
not part of the extracted sources; the code assignments follow RFC 9580 §9.1
and draft-ietf-openpgp-pqc-10 §6.1 as recorded in the specification. -/
def pkRsaEncryptSign : Nat := 1
def pkRsaEncrypt : Nat := 2
def pkRsaSign : Nat := 3
def pkElgamal : Nat := 16
def pkDsa : Nat := 17
def pkEcdh : Nat := 18
def pkEddsaLegacy : Nat := 22
def pkX25519 : Nat := 25
def pkX448 : Nat := 26
def pkEd25519 : Nat := 27
def pkEd448 : Nat := 28
def pkHmac : Nat := 101
def pkAead : Nat := 102
def pkPqcMlkemX25519 : Nat := 105
def pkPqcMldsaEd25519 : Nat := 107
def pkPqcSlhdsaShake128s : Nat := 108

/-- `enums.symmetric` numeric codes. Modelled from the spec (RFC 9580 §9.3). -/
def symPlaintext : Nat := 0
def symIdea : Nat := 1
def symTripledes : Nat := 2
def symCast5 : Nat := 3
def symBlowfish : Nat := 4
def symAes128 : Nat := 7
def symAes192 : Nat := 8
def symAes256 : Nat := 9
def symTwofish : Nat := 10

/-- The values registered in `enums.symmetric`. Modelled from the spec:
the symmetric-algorithm registry of RFC 9580 §9.3. -/
def registeredSymmetricAlgos : List Nat :=
  [symPlaintext, symIdea, symTripledes, symCast5, symBlowfish,
   symAes128, symAes192, symAes256, symTwofish]

/-- `enums.hash` numeric codes. Modelled from the spec (RFC 9580 §9.5). -/
def hashMd5 : Nat := 1
def hashSha1 : Nat := 2
def hashRipemd : Nat := 3
def hashSha256 : Nat := 8
def hashSha384 : Nat := 9
def hashSha512 : Nat := 10
def hashSha224 : Nat := 11
def hashSha3_256 : Nat := 12
def hashSha3_512 : Nat := 14

/-- `enums.aead` numeric codes. Modelled from the spec (RFC 9580 §9.6). -/
def aeadEax : Nat := 1
def aeadOcb : Nat := 2
def aeadGcm : Nat := 3

/-- `getHashByteLength` (crypto/hash, not in the extracted sources).
Modelled from the spec: digest sizes of the registered hash algorithms.
Unknown algorithms yield an error, surfaced by the callers. -/
def getHashByteLength (algo : Nat) : Except String Nat :=
  if algo = hashMd5 then .ok 16
  else if algo = hashSha1 then .ok 20
  else if algo = hashRipemd then .ok 20
  else if algo = hashSha256 then .ok 32
  else if algo = hashSha384 then .ok 48
  else if algo = hashSha512 then .ok 64
  else if algo = hashSha224 then .ok 28
  else if algo = hashSha3_256 then .ok 32
  else if algo = hashSha3_512 then .ok 64
  else .error "Invalid hash algorithm."

/-- Key size and block size of a symmetric cipher. -/
structure CipherParams where
  keySize : Nat
  blockSize : Nat
deriving DecidableEq, Repr

/-- `getCipherParams` (crypto/cipher, not in the extracted sources).
Modelled from the spec: standard key/block sizes of the registered
symmetric ciphers; unknown values yield an error. -/
def getCipherParams (algo : Nat) : Except String CipherParams :=
  if algo = symIdea then .ok ⟨16, 8⟩
  else if algo = symTripledes then .ok ⟨24, 8⟩
  else if algo = symCast5 then .ok ⟨16, 8⟩
  else if algo = symBlowfish then .ok ⟨16, 8⟩
  else if algo = symAes128 then .ok ⟨16, 16⟩
  else if algo = symAes192 then .ok ⟨24, 16⟩
  else if algo = symAes256 then .ok ⟨32, 16⟩
  else if algo = symTwofish then .ok ⟨32, 16⟩
  else .error "Unknown cipher"

/-- Nonce length of an AEAD mode (`cipherMode.getAEADMode(...).ivLength`,
not in the extracted sources). Modelled from the spec: EAX 16, OCB 15,
GCM 12 octets. -/
def getAEADModeIvLength (mode : Nat) : Except String Nat :=
  if mode = aeadEax then .ok 16
  else if mode = aeadOcb then .ok 15
  else if mode = aeadGcm then .ok 12
  else .error "Unsupported AEAD mode"

/-- `util.isAES` (util.js, not in the extracted sources). Modelled from the
spec: the AES variants are the symmetric codes 7, 8, 9. -/
def isAES (algo : Nat) : Bool :=
  algo = symAes128 ∨ algo = symAes192 ∨ algo = symAes256

/-! ## util.js byte helpers (modelled from the spec §4.1, since util.js is
not part of the extracted sources). -/

/-- `util.encodeUTF8` restricted to ASCII input (the only use in scope is
the ASCII domain-separation string of the KEM combiner). -/
def encodeUTF8 (s : String) : Bytes := s.toList.map Char.toNat

/-- `util.writeChecksum`. Modelled from the spec: 2-byte big-endian sum of
the bytes mod 65536. -/
def writeChecksum (data : Bytes) : Bytes :=
  let s := (data.foldl (· + ·) 0) % 65536
  [s / 256, s % 256]

/-- `util.selectUint8Array`. Modelled from the spec: a branchless bitwise
select with the functional behaviour `cond ? a : b`. -/
def selectUint8Array (cond : Bool) (a b : Bytes) : Bytes :=
  if cond then a else b

/-- `util.selectUint8`. Modelled from the spec: a branchless bitwise select
with the functional behaviour `cond ? a : b`. -/
def selectUint8 (cond : Bool) (a b : Nat) : Nat :=
  if cond then a else b

/-- Leading-zero stripping used by the MPI encoder. -/
def stripLeadingZeros : Bytes → Bytes
  | [] => []
  | b :: rest => if b = 0 then stripLeadingZeros rest else b :: rest

/-- Bit length of a byte string: `8 * (significant bytes - 1)` plus the
position of the highest set bit of the first nonzero byte. -/
def byteArrayBitLength (b : Bytes) : Nat :=
  match stripLeadingZeros b with
  | [] => 0
  | h :: t => t.length * 8 + (Nat.log2 h + 1)

/-- `util.uint8ArrayToMPI`. Modelled from the spec §4.1: emits the 2-byte
big-endian bit length (computed from the highest set bit of the first
nonzero byte) followed by the bytes with leading zero octets stripped;
an all-zero input is rejected. -/
def uint8ArrayToMPI (b : Bytes) : Except String Bytes :=
  match stripLeadingZeros b with
  | [] => .error "Zero MPI"
  | h :: t =>
      let bits := byteArrayBitLength b
      .ok ([bits / 256, bits % 256] ++ h :: t)

/-- `util.readMPI`. Modelled from the spec §4.1: reads a 2-byte big-endian
bit length `L`, then `ceil(L/8)` bytes; errors if truncated. -/
def readMPI (bytes : Bytes) : Except String Bytes :=
  match bytes with
  | b0 :: b1 :: rest =>
      let bits := b0 * 256 + b1
      let byteLen := (bits + 7) / 8
      if byteLen ≤ rest.length then .ok (rest.take byteLen)
      else .error "Truncated MPI"
  | _ => .error "Truncated MPI"

/-- `util.leftPad`. Modelled from the spec §4.1: prepends zeros up to
length `n`; errors if the input is longer than `n`. -/
def leftPad (b : Bytes) (n : Nat) : Except String Bytes :=
  if n < b.length then .error "Padded array longer than expected"
  else .ok (List.replicate (n - b.length) 0 ++ b)

/-- `util.readExactSubarray`. Modelled from the spec §4.1: the subarray
`[start, stop)`; errors if `stop` exceeds the input length. -/
def readExactSubarray (b : Bytes) (start stop : Nat) : Except String Bytes :=
  if b.length < stop then .error "Input array too short"
  else .ok ((b.drop start).take (stop - start))

/-! ## Composite ML-KEM + X25519 KEM
(`crypto/public_key/post_quantum/kem/kem.js`, the `postQuantum.kem` module
invoked by the `pqc_mlkem_x25519` branches of the dispatched
`publicKeyEncrypt` / `publicKeyDecrypt`: its `generate` returns `mlkemSeed`
and its `validateParams` takes `mlkemSeed`, matching what `generateParams`
destructures and what `validateParams` forwards in crypto/crypto.js). -/

/-- External KEM primitives consumed by the composite KEM module
(`ecc_kem`, `ml_kem`, `aes_kw`, `hash`): parameters of the embedding. -/
structure KemPrims where
  /-- `eccKem.encaps`: returns `(eccKeyShare, eccCipherText)`. -/
  eccEncaps : Nat → Bytes → Bytes × Bytes
  /-- `eccKem.decaps`. -/
  eccDecaps : Nat → Bytes → Bytes → Bytes → Bytes
  /-- `mlKem.encaps`: returns `(mlkemKeyShare, mlkemCipherText)`. -/
  mlkemEncaps : Nat → Bytes → Bytes × Bytes
  /-- `mlKem.decaps`. -/
  mlkemDecaps : Nat → Bytes → Bytes → Bytes
  /-- `aesKW.wrap algo kek data`. -/
  aeskwWrap : Nat → Bytes → Bytes → Bytes
  /-- `aesKW.unwrap algo kek data`. -/
  aeskwUnwrap : Nat → Bytes → Bytes → Bytes
  /-- `computeDigest hashAlgo data`. -/
  computeDigest : Nat → Bytes → Bytes

/-- `multiKeyCombine(algo, mlkemKeyShare, ecdhKeyShare, ecdhCipherText,
ecdhPublicKey)` of kem.js: the one-shot SHA3-256 digest of
`mlkemKeyShare ‖ ecdhKeyShare ‖ ecdhCipherText ‖ ecdhPublicKey ‖ [algo] ‖
domSep ‖ [domSep.length]` with `domSep = "OpenPGPCompositeKDFv1"`. The
ML-KEM ciphertext and public key are not part of the digest input. -/
def multiKeyCombine (computeDigest : Nat → Bytes → Bytes) (algo : Nat)
    (mlkemKeyShare ecdhKeyShare ecdhCipherText ecdhPublicKey : Bytes) :
    Bytes :=
  let domSep := encodeUTF8 "OpenPGPCompositeKDFv1"
  let encData :=
    mlkemKeyShare ++ ecdhKeyShare ++ ecdhCipherText ++ ecdhPublicKey ++
    [algo] ++ domSep ++ [domSep.length]
  computeDigest hashSha3_256 encData

/-- `kem.encrypt` (kem.js): ECDH encaps, ML-KEM encaps, KEK combination,
AES-256 key wrap of the session-key data. -/
def kemEncrypt (P : KemPrims) (algo : Nat) (eccPublicKey mlkemPublicKey sessionKeyData : Bytes) :
    Bytes × Bytes × Bytes :=
  let eccKeyShare := (P.eccEncaps algo eccPublicKey).1
  let eccCipherText := (P.eccEncaps algo eccPublicKey).2
  let mlkemKeyShare := (P.mlkemEncaps algo mlkemPublicKey).1
  let mlkemCipherText := (P.mlkemEncaps algo mlkemPublicKey).2
  let kek := multiKeyCombine P.computeDigest algo
    mlkemKeyShare eccKeyShare eccCipherText eccPublicKey
  let wrappedKey := P.aeskwWrap symAes256 kek sessionKeyData
  (eccCipherText, mlkemCipherText, wrappedKey)

/-- `kem.decrypt` (kem.js): ECDH decaps, ML-KEM decaps (which does not take
the ML-KEM public key), the same KEK combination, AES-256 key unwrap. -/
def kemDecrypt (P : KemPrims) (algo : Nat)
    (eccCipherText mlkemCipherText eccSecretKey eccPublicKey mlkemSecretKey mlkemPublicKey
     encryptedSessionKeyData : Bytes) : Bytes :=
  let eccKeyShare := P.eccDecaps algo eccCipherText eccSecretKey eccPublicKey
  let mlkemKeyShare := P.mlkemDecaps algo mlkemCipherText mlkemSecretKey
  let kek := multiKeyCombine P.computeDigest algo
    mlkemKeyShare eccKeyShare eccCipherText eccPublicKey
  P.aeskwUnwrap symAes256 kek encryptedSessionKeyData

/-- A concrete KEM primitive instance whose digest is the identity on the
message and whose key wrap returns the KEK itself, exposing the combiner
input for concrete evaluation. -/
def kemIdPrims : KemPrims where
  eccEncaps := fun _ _ => ([2], [3])
  eccDecaps := fun _ _ _ _ => [2]
  mlkemEncaps := fun _ _ => ([1], [5])
  mlkemDecaps := fun _ _ _ => [1]
  aeskwWrap := fun _ kek _ => kek
  aeskwUnwrap := fun _ kek _ => kek
  computeDigest := fun _ m => m

/-! ## PKESK packet (tag 1), `packet/public_key_encrypted_session_key.js` -/

/-- The algorithms using the checksummed session-key encoding in
`encodeSessionKey` / `decodeSessionKey`. -/
def checksummedAlgos : List Nat :=
  [pkRsaEncrypt, pkRsaEncryptSign, pkElgamal, pkEcdh, pkAead]

/-- `algosWithV3CleartextSessionKeyAlgorithm`. -/
def algosWithV3CleartextSessionKeyAlgorithm : List Nat :=
  [pkX25519, pkX448, pkPqcMlkemX25519]

/-- Result of `decodeSessionKey`: the session key and, when carried in-band
(v3), the symmetric algorithm (`null` is modelled as `none`). -/
structure DecodedSessionKey where
  sessionKeyAlgorithm : Option Nat
  sessionKey : Bytes
deriving DecidableEq, Repr

/-- The `randomSessionKey` fallback object
`{ sessionKey: Uint8Array, sessionKeyAlgorithm: enums.symmetric }`. -/
structure RandomSessionKeyFallback where
  sessionKey : Bytes
  sessionKeyAlgorithm : Nat
deriving DecidableEq, Repr

/-- `encodeSessionKey(version, keyAlgo, cipherAlgo, sessionKeyData)`:
checksummed encoding (with a leading cipher-algorithm octet for v3) for
RSA/ElGamal/ECDH/AEAD, raw session key for X25519/X448/ML-KEM composite. -/
def encodeSessionKey (version keyAlgo : Nat) (cipherAlgo : Option Nat)
    (sessionKeyData : Bytes) : Except String Bytes :=
  if keyAlgo ∈ checksummedAlgos then
    -- add checksum
    .ok ((if version = 6 then [] else [cipherAlgo.getD 0]) ++ sessionKeyData ++
      writeChecksum (sessionKeyData.drop (sessionKeyData.length % 8)))
  else if keyAlgo ∈ algosWithV3CleartextSessionKeyAlgorithm then
    .ok sessionKeyData
  else
    .error "Unsupported public key algorithm"

/-- `decodeSessionKey(version, keyAlgo, decryptedData, randomSessionKey)`.
The checksum is verified bytewise; with a `randomSessionKey` the output is
chosen by the constant-time select helpers, without one any failing check
yields the generic decryption error (the registration check of the decoded
cipher algorithm — `enums.read`, not in the extracted sources — is modelled
from the spec: a single opaque `DecryptionError` with no checksum-vs-algo
distinction). -/
def decodeSessionKey (version keyAlgo : Nat) (decryptedData : Bytes)
    (randomSessionKey : Option RandomSessionKeyFallback) :
    Except String DecodedSessionKey :=
  if keyAlgo ∈ checksummedAlgos then
    -- verify checksum in constant time
    let result := decryptedData.take (decryptedData.length - 2)
    let checksum := decryptedData.drop (decryptedData.length - 2)
    let computedChecksum := writeChecksum (result.drop (result.length % 8))
    let isValidChecksum : Bool :=
      decide (computedChecksum.get? 0 = checksum.get? 0) &&
      decide (computedChecksum.get? 1 = checksum.get? 1)
    let decryptedSessionKey : DecodedSessionKey :=
      if version = 6 then ⟨none, result⟩ else ⟨result.head?, result.tail⟩
    match randomSessionKey with
    | some r =>
        -- The decrypted session key must be of the same algo and size as the
        -- random session key, otherwise it is discarded for the random data.
        let isValidPayload : Bool := isValidChecksum &&
          decide (decryptedSessionKey.sessionKeyAlgorithm = some r.sessionKeyAlgorithm) &&
          decide (decryptedSessionKey.sessionKey.length = r.sessionKey.length)
        .ok ⟨if version = 6 then none
             else some (selectUint8 isValidPayload
               (decryptedSessionKey.sessionKeyAlgorithm.getD 0) r.sessionKeyAlgorithm),
             selectUint8Array isValidPayload decryptedSessionKey.sessionKey r.sessionKey⟩
    | none =>
        let isValidPayload : Bool := isValidChecksum &&
          (decide (version = 6) ||
            (match decryptedSessionKey.sessionKeyAlgorithm with
             | some a => decide (a ∈ registeredSymmetricAlgos)
             | none => false))
        if isValidPayload then .ok decryptedSessionKey
        else .error "Decryption error"
  else if keyAlgo ∈ algosWithV3CleartextSessionKeyAlgorithm then
    .ok ⟨none, decryptedData⟩
  else
    .error "Unsupported public key algorithm"

/-- `getCurvePayloadSize` for the native elliptic algorithms (Ed25519 /
Ed448 / X25519 / X448); the OID-based algorithms are handled via `Curve`. -/
def getCurvePayloadSize (algo : Nat) : Except String Nat :=
  if algo = pkEd25519 then .ok 32
  else if algo = pkEd448 then .ok 57
  else if algo = pkX25519 then .ok 32
  else if algo = pkX448 then .ok 56
  else .error "Unknown elliptic algo"

/-- `ECDHSymkey.read` (type/ecdh_symkey.js, not in the extracted sources).
Modelled from the spec's short-byte-string codec: a one-octet length
followed by that many data bytes; errors if truncated.
Returns (data, bytesRead). -/
def readECDHSymkey (bytes : Bytes) : Except String (Bytes × Nat) :=
  match bytes with
  | [] => .error "Invalid symmetric key"
  | len :: rest =>
      if rest.length < len then .error "Invalid symmetric key"
      else .ok (rest.take len, 1 + len)

/-- `ShortByteString.read` (type/short_byte_string.js, not in the extracted
sources). Modelled from the spec's short-byte-string codec: a one-octet
length followed by the data (truncated reads keep the available bytes, as
the source performs no length check here). Returns (data, bytesRead). -/
def readShortByteString (bytes : Bytes) : Bytes × Nat :=
  let len := bytes.headD 0
  let data := (bytes.drop 1).take len
  (data, 1 + data.length)

/-- `ECDHXSymmetricKey.read` (type/ecdh_x_symkey.js, not in the extracted
sources). Modelled from the spec: a one-octet size of the following fields,
then the one-octet cleartext symmetric algorithm identifier if it was
passed (v3 PKESK), then the wrapped session key. As the AES-KW wrapped key
length is a multiple of 8, the algorithm octet is present exactly when the
declared size is not a multiple of 8.
Returns (algorithm, wrappedKey, bytesRead). -/
def readECDHXSymmetricKey (bytes : Bytes) : Except String (Option Nat × Bytes × Nat) :=
  match bytes with
  | [] => .error "Input array too short"
  | followingLength :: rest =>
      if followingLength % 8 = 0 then
        (readExactSubarray rest 0 followingLength).map
          (fun wrapped => (none, wrapped, 1 + followingLength))
      else
        match rest with
        | [] => .error "Input array too short"
        | algoByte :: rest2 =>
            (readExactSubarray rest2 0 (followingLength - 1)).map
              (fun wrapped => (some algoByte, wrapped, 1 + followingLength))

/-- The encrypted session-key parameter record, per algorithm family
(`parseEncSessionKeyParams` result). -/
inductive EncSessionKeyParams
  /-- RSA: MPI of the encrypted value. -/
  | rsa (c : Bytes)
  /-- ElGamal: two MPIs. -/
  | elgamal (c1 c2 : Bytes)
  /-- ECDH: ephemeral point MPI and wrapped key. -/
  | ecdh (V : Bytes) (C : Bytes)
  /-- X25519/X448: ephemeral public key and `ECDHXSymmetricKey`. -/
  | ecdhX (ephemeralPublicKey : Bytes) (algorithm : Option Nat) (wrappedKey : Bytes)
  /-- Symmetric AEAD keys: AEAD mode, nonce, length-prefixed ciphertext. -/
  | aead (aeadMode : Nat) (iv : Bytes) (c : Bytes)
  /-- ML-KEM+X25519 composite: both ciphertexts and `ECDHXSymmetricKey`. -/
  | pqc (eccCipherText mlkemCipherText : Bytes) (algorithm : Option Nat) (wrappedKey : Bytes)
deriving DecidableEq, Repr

/-- The `this.encrypted.C.algorithm` accessor used by the PKESK parser. -/
def EncSessionKeyParams.cAlgorithm : EncSessionKeyParams → Option Nat
  | .ecdhX _ a _ => a
  | .pqc _ _ a _ => a
  | _ => none

/-- `parseEncSessionKeyParams(algo, bytes)` (crypto/crypto.js). -/
def parseEncSessionKeyParams (algo : Nat) (bytes : Bytes) :
    Except String EncSessionKeyParams :=
  if algo = pkRsaEncrypt ∨ algo = pkRsaEncryptSign then
    (readMPI bytes).map .rsa
  else if algo = pkElgamal then do
    let c1 ← readMPI bytes
    let c2 ← readMPI (bytes.drop (c1.length + 2))
    .ok (.elgamal c1 c2)
  else if algo = pkEcdh then do
    let V ← readMPI bytes
    let (C, _) ← readECDHSymkey (bytes.drop (V.length + 2))
    .ok (.ecdh V C)
  else if algo = pkX25519 ∨ algo = pkX448 then do
    let pointSize ← getCurvePayloadSize algo
    let ephemeralPublicKey ← readExactSubarray bytes 0 pointSize
    let (a, wrappedKey, _) ← readECDHXSymmetricKey (bytes.drop pointSize)
    .ok (.ecdhX ephemeralPublicKey a wrappedKey)
  else if algo = pkAead then do
    let aeadMode := bytes.headD 0
    let ivLength ← getAEADModeIvLength aeadMode
    let iv := (bytes.drop 1).take ivLength
    let (c, _) := readShortByteString (bytes.drop (1 + ivLength))
    .ok (.aead aeadMode iv c)
  else if algo = pkPqcMlkemX25519 then do
    let eccCipherText ← readExactSubarray bytes 0 32
    let mlkemCipherText ← readExactSubarray bytes 32 (32 + 1088)
    let (a, wrappedKey, _) ← readECDHXSymmetricKey (bytes.drop (32 + 1088))
    .ok (.pqc eccCipherText mlkemCipherText a wrappedKey)
  else
    .error "Unknown public key encryption algorithm."

/-- The parsed state of a PKESK (tag 1) packet. -/
structure PKESKPacket where
  version : Nat
  publicKeyID : Bytes
  publicKeyVersion : Option Nat
  publicKeyFingerprint : Option Bytes
  publicKeyAlgorithm : Nat
  sessionKey : Option Bytes
  sessionKeyAlgorithm : Option Nat
  encrypted : EncSessionKeyParams
deriving DecidableEq, Repr

/-- `KeyID.wildcard()`: 8 zero octets. -/
def keyIDWildcard : Bytes := List.replicate 8 0

/-- `bytes[i]` with out-of-range reads collapsing to 0 (the observable
behaviour of the source at the places this helper is used). -/
def byteAt (b : Bytes) (i : Nat) : Nat := (b.get? i).getD 0

/-- `PublicKeyEncryptedSessionKeyPacket.read(bytes)`: version octet,
recipient identification (v3 key ID / v6 key-version-and-fingerprint
block), algorithm octet, encrypted parameters, and the cleartext
symmetric-algorithm logic for X25519/X448/ML-KEM composite (the
registration check of `enums.write(enums.symmetric, ·)` is modelled from
the spec's symmetric registry). -/
def pkeskRead (bytes : Bytes) : Except String PKESKPacket :=
  let version := byteAt bytes 0
  if version ≠ 3 ∧ version ≠ 6 then
    .error "Version of the PKESK packet is unsupported."
  else
  let headerInfo : Bytes × Option Nat × Option Bytes × Nat :=
    if version = 6 then
      -- A one-octet size of the key version number and fingerprint fields
      let versionAndFingerprintLength := byteAt bytes 1
      if versionAndFingerprintLength ≠ 0 then
        let publicKeyVersion := byteAt bytes 2
        let fingerprintLength := versionAndFingerprintLength - 1
        let fingerprint := (bytes.drop 3).take fingerprintLength
        let keyID :=
          if 5 ≤ publicKeyVersion then
            -- For v5/6 the Key ID is the high-order 64 bits of the fingerprint.
            fingerprint.take 8
          else
            -- For v4 the Key ID is the low-order 64 bits of the fingerprint.
            fingerprint.drop (fingerprint.length - 8)
        (keyID, some publicKeyVersion, some fingerprint, 3 + fingerprintLength)
      else
        -- anonymous recipient
        (keyIDWildcard, none, none, 2)
    else
      ((bytes.drop 1).take 8, none, none, 9)
  let offset := headerInfo.2.2.2
  let publicKeyAlgorithm := byteAt bytes offset
  match parseEncSessionKeyParams publicKeyAlgorithm (bytes.drop (offset + 1)) with
  | .error e => .error e
  | .ok encrypted =>
    let sessionKeyAlgorithmE : Except String (Option Nat) :=
      if publicKeyAlgorithm ∈ algosWithV3CleartextSessionKeyAlgorithm then
        if version = 3 then
          -- enums.write(enums.symmetric, this.encrypted.C.algorithm)
          match encrypted.cAlgorithm with
          | some a =>
              if a ∈ registeredSymmetricAlgos then .ok (some a)
              else .error "Invalid enum value."
          | none => .error "Invalid enum value."
        else if encrypted.cAlgorithm ≠ none then
          .error "Unexpected cleartext symmetric algorithm"
        else .ok none
      else .ok none
    match sessionKeyAlgorithmE with
    | .error e => .error e
    | .ok sessionKeyAlgorithm =>
      .ok { version := version, publicKeyID := headerInfo.1,
            publicKeyVersion := headerInfo.2.1, publicKeyFingerprint := headerInfo.2.2.1,
            publicKeyAlgorithm := publicKeyAlgorithm, sessionKey := none,
            sessionKeyAlgorithm := sessionKeyAlgorithm, encrypted := encrypted }

/-- `PublicKeyEncryptedSessionKeyPacket.decrypt(key, randomSessionKey)`.
The dispatched `publicKeyDecrypt` call (together with the key material and
fingerprint it closes over) is a parameter `pkDecrypt`, taking the optional
`randomPayload` computed from the random session key. -/
def pkeskDecrypt (pkDecrypt : Option Bytes → Except String Bytes)
    (packet : PKESKPacket) (keyAlgorithm : Nat)
    (randomSessionKey : Option RandomSessionKeyFallback) :
    Except String PKESKPacket :=
  -- check that session key algo matches the secret key algo
  if packet.publicKeyAlgorithm ≠ keyAlgorithm then
    .error "Decryption error"
  else
    let randomPayloadE : Except String (Option Bytes) :=
      match randomSessionKey with
      | some r =>
          (encodeSessionKey packet.version packet.publicKeyAlgorithm
            (some r.sessionKeyAlgorithm) r.sessionKey).map some
      | none => .ok none
    match randomPayloadE with
    | .error e => .error e
    | .ok randomPayload =>
      match pkDecrypt randomPayload with
      | .error e => .error e
      | .ok decryptedData =>
        match decodeSessionKey packet.version packet.publicKeyAlgorithm
            decryptedData randomSessionKey with
        | .error e => .error e
        | .ok decoded =>
          if packet.version = 3 then
            -- v3 Montgomery curves have cleartext cipher algo
            let hasEncryptedAlgo :=
              packet.publicKeyAlgorithm ∉ algosWithV3CleartextSessionKeyAlgorithm
            let newAlgo := if hasEncryptedAlgo then decoded.sessionKeyAlgorithm
                           else packet.sessionKeyAlgorithm
            match (match newAlgo with
                   | some a => getCipherParams a
                   | none => Except.error "Unknown cipher" : Except String CipherParams) with
            | .error e => .error e
            | .ok cp =>
              if decoded.sessionKey.length ≠ cp.keySize then
                .error "Unexpected session key size"
              else
                .ok { packet with sessionKeyAlgorithm := newAlgo,
                                  sessionKey := some decoded.sessionKey }
          else
            .ok { packet with sessionKey := some decoded.sessionKey }

/-- The KEK formula exactly as the specification words it: the one-shot
SHA3-256 digest of
`counter(0,0,0,1) ‖ eccShare ‖ eccCt ‖ eccPub ‖ mlkemShare ‖ mlkemCt ‖ mlkemPub ‖ [algo] ‖ "OpenPGPCompositeKDFv1"`.
Stated from the spec's words for comparison with the source's
`multiKeyCombine` (refinement target). -/
def specCompositeKDF (computeDigest : Nat → Bytes → Bytes) (algo : Nat)
    (eccShare eccCt eccPub mlkemShare mlkemCt mlkemPub : Bytes) : Bytes :=
  computeDigest hashSha3_256
    ([0, 0, 0, 1] ++ eccShare ++ eccCt ++ eccPub ++ mlkemShare ++ mlkemCt ++ mlkemPub
      ++ [algo] ++ encodeUTF8 "OpenPGPCompositeKDFv1")

/-! ## Key parameter records and their (de)serialization
(`crypto/crypto.js`: `parsePublicKeyParams`, `parsePrivateKeyParams`,
`serializeParams`). -/

/-- ECDSA public-key code (RFC 9580 §9.1; `enums.publicKey.ecdsa`). -/
def pkEcdsa : Nat := 19

/-- The supported curves (`CurveWithOID`, not in the extracted sources).
Modelled from the spec: the registered curve OIDs of RFC 9580 §9.2; unknown
OIDs are rejected as `Unsupported`. -/
inductive Curve
  | nistP256
  | nistP384
  | nistP521
  | secp256k1
  | brainpoolP256r1
  | brainpoolP384r1
  | brainpoolP512r1
  | curve25519Legacy
  | ed25519Legacy
deriving DecidableEq, Repr

/-- The DER-encoded OID body of each supported curve (RFC 9580 §9.2). -/
def Curve.oidBytes : Curve → Bytes
  | .nistP256 => [0x2A, 0x86, 0x48, 0xCE, 0x3D, 0x03, 0x01, 0x07]
  | .nistP384 => [0x2B, 0x81, 0x04, 0x00, 0x22]
  | .nistP521 => [0x2B, 0x81, 0x04, 0x00, 0x23]
  | .secp256k1 => [0x2B, 0x81, 0x04, 0x00, 0x0A]
  | .brainpoolP256r1 => [0x2B, 0x24, 0x03, 0x03, 0x02, 0x08, 0x01, 0x01, 0x07]
  | .brainpoolP384r1 => [0x2B, 0x24, 0x03, 0x03, 0x02, 0x08, 0x01, 0x01, 0x0B]
  | .brainpoolP512r1 => [0x2B, 0x24, 0x03, 0x03, 0x02, 0x08, 0x01, 0x01, 0x0D]
  | .curve25519Legacy => [0x2B, 0x06, 0x01, 0x04, 0x01, 0x97, 0x55, 0x01, 0x05, 0x01]
  | .ed25519Legacy => [0x2B, 0x06, 0x01, 0x04, 0x01, 0xDA, 0x47, 0x0F, 0x01]

/-- `CurveWithOID(oid).payloadSize`: the encoded secret size per curve. -/
def Curve.payloadSize : Curve → Nat
  | .nistP256 => 32
  | .nistP384 => 48
  | .nistP521 => 66
  | .secp256k1 => 32
  | .brainpoolP256r1 => 32
  | .brainpoolP384r1 => 48
  | .brainpoolP512r1 => 64
  | .curve25519Legacy => 32
  | .ed25519Legacy => 32

/-- All supported curves, for OID lookup. -/
def allCurves : List Curve :=
  [.nistP256, .nistP384, .nistP521, .secp256k1,
   .brainpoolP256r1, .brainpoolP384r1, .brainpoolP512r1,
   .curve25519Legacy, .ed25519Legacy]

/-- `OID.write()`: a one-octet length followed by the OID body. -/
def oidWrite (c : Curve) : Bytes := c.oidBytes.length :: c.oidBytes

/-- `OID.read()` followed by `checkSupportedCurve` (type/oid.js, not in the
extracted sources). Modelled from the spec: reads the one-octet length and
the body and rejects unknown curve OIDs as `Unsupported`.
Returns (curve, bytesRead). -/
def oidRead (bytes : Bytes) : Except String (Curve × Nat) :=
  match bytes with
  | [] => .error "Invalid oid"
  | len :: rest =>
      if len = 0 ∨ rest.length < len then .error "Invalid oid"
      else
        match allCurves.find? (fun c => decide (c.oidBytes = rest.take len)) with
        | some c => .ok (c, len + 1)
        | none => .error "Unknown curve OID"

/-- ECDH KDF parameters (type/kdf_params.js, not in the extracted sources).
Modelled from the spec (RFC 9580 §9.2 KDF parameters field). -/
structure KDFParams where
  hash : Nat
  cipher : Nat
deriving DecidableEq, Repr

/-- `KDFParams.write()`: size octet 3, version octet 1, hash, cipher. -/
def KDFParams.write (k : KDFParams) : Bytes := [3, 1, k.hash, k.cipher]

/-- `KDFParams.read()`: rejects any other size or version.
Returns (params, bytesRead). -/
def kdfParamsRead (bytes : Bytes) : Except String (KDFParams × Nat) :=
  match bytes with
  | size :: v :: h :: c :: _ =>
      if size = 3 ∧ v = 1 then .ok (⟨h, c⟩, 4) else .error "Cannot read KDFParams"
  | _ => .error "Cannot read KDFParams"

/-- Public key parameter records, per algorithm family, with constructor
argument order matching the source's object-literal insertion order. -/
inductive PublicParams
  | rsa (n e : Bytes)
  | dsa (p q g y : Bytes)
  | elgamal (p g y : Bytes)
  | ecdsa (oid : Curve) (Q : Bytes)
  | eddsaLegacy (oid : Curve) (Q : Bytes)
  | ecdh (oid : Curve) (Q : Bytes) (kdfParams : KDFParams)
  /-- Ed25519 / Ed448 native. -/
  | eddsa (A : Bytes)
  /-- X25519 / X448 native. -/
  | ecdhX (A : Bytes)
  /-- HMAC / AEAD symmetric keys: cipher (or hash) enum and binding digest. -/
  | symmetric (cipher : Nat) (digest : Bytes)
  | mlkem (eccPublicKey mlkemPublicKey : Bytes)
  | mldsa (eccPublicKey mldsaPublicKey : Bytes)
deriving DecidableEq, Repr

/-- The `publicParams.oid` accessor used by the private-key parsers. -/
def PublicParams.oid? : PublicParams → Option Curve
  | .ecdsa oid _ => some oid
  | .eddsaLegacy oid _ => some oid
  | .ecdh oid _ _ => some oid
  | _ => none

/-- Private key parameter records. Constructor argument order follows
`generateParams`' object-literal insertion order; the parsers' insertion
order differs only in the position of the expanded PQC secret key, which
is excluded from serialization, so both orders serialize identically. -/
inductive PrivateParams
  | rsa (d p q u : Bytes)
  | dsaElgamal (x : Bytes)
  | ecdsaEcdh (d : Bytes)
  | eddsaLegacy (seed : Bytes)
  | eddsa (seed : Bytes)
  | ecdhX (k : Bytes)
  | symmetric (hashSeed keyMaterial : Bytes)
  | mlkem (eccSecretKey mlkemSeed mlkemSecretKey : Bytes)
  | mldsa (eccSecretKey mldsaSeed mldsaSecretKey : Bytes)
deriving DecidableEq, Repr

/-- A parameter-record field value: either a raw `Uint8Array` or a wrapper
object whose `write()` output is stored. -/
inductive ParamValue
  | raw (b : Bytes)
  | wrapped (written : Bytes)
deriving DecidableEq, Repr

/-- `Object.keys` insertion order and field values of a private parameter
record. -/
def PrivateParams.fields : PrivateParams → List (String × ParamValue)
  | .rsa d p q u => [("d", .raw d), ("p", .raw p), ("q", .raw q), ("u", .raw u)]
  | .dsaElgamal x => [("x", .raw x)]
  | .ecdsaEcdh d => [("d", .raw d)]
  | .eddsaLegacy seed => [("seed", .raw seed)]
  | .eddsa seed => [("seed", .raw seed)]
  | .ecdhX k => [("k", .raw k)]
  | .symmetric hashSeed keyMaterial =>
      [("hashSeed", .raw hashSeed), ("keyMaterial", .raw keyMaterial)]
  | .mlkem ecc seed sk =>
      [("eccSecretKey", .raw ecc), ("mlkemSeed", .raw seed), ("mlkemSecretKey", .raw sk)]
  | .mldsa ecc seed sk =>
      [("eccSecretKey", .raw ecc), ("mldsaSeed", .raw seed), ("mldsaSecretKey", .raw sk)]

/-- `Object.keys` insertion order and field values of a public parameter
record. -/
def PublicParams.fields : PublicParams → List (String × ParamValue)
  | .rsa n e => [("n", .raw n), ("e", .raw e)]
  | .dsa p q g y => [("p", .raw p), ("q", .raw q), ("g", .raw g), ("y", .raw y)]
  | .elgamal p g y => [("p", .raw p), ("g", .raw g), ("y", .raw y)]
  | .ecdsa oid Q => [("oid", .wrapped (oidWrite oid)), ("Q", .raw Q)]
  | .eddsaLegacy oid Q => [("oid", .wrapped (oidWrite oid)), ("Q", .raw Q)]
  | .ecdh oid Q k =>
      [("oid", .wrapped (oidWrite oid)), ("Q", .raw Q), ("kdfParams", .wrapped k.write)]
  | .eddsa A => [("A", .raw A)]
  | .ecdhX A => [("A", .raw A)]
  | .symmetric c digest => [("cipher", .wrapped [c]), ("digest", .raw digest)]
  | .mlkem e m => [("eccPublicKey", .raw e), ("mlkemPublicKey", .raw m)]
  | .mldsa e m => [("eccPublicKey", .raw e), ("mldsaPublicKey", .raw m)]

/-- `serializeParams`' set of algorithms with native (non-MPI) binary
parameters. -/
def algosWithNativeRepresentation : List Nat :=
  [pkEd25519, pkX25519, pkEd448, pkX448, pkAead, pkHmac,
   pkPqcMlkemX25519, pkPqcMldsaEd25519]

/-- `serializeParams`' excluded fields: only the seed is serialized for the
PQC composites, not the expanded secret key. -/
def excludedFields (algo : Nat) : List String :=
  if algo = pkPqcMlkemX25519 then ["mlkemSecretKey"]
  else if algo = pkPqcMldsaEd25519 then ["mldsaSecretKey"]
  else []

/-- Serialization of one parameter-record field (the body of the
`orderedParams` map in `serializeParams`). -/
def serializeParam (algo : Nat) : String × ParamValue → Except String Bytes
  | (name, v) =>
      if name ∈ excludedFields algo then .ok []
      else
        match v with
        | .wrapped w => .ok w
        | .raw b =>
            if algo ∈ algosWithNativeRepresentation then .ok b
            else uint8ArrayToMPI b

/-- `serializeParams(algo, params)`: concatenation of the per-field
serializations in insertion order (the source's map-then-concat, expressed
recursively: fields are serialized left to right and the first failure
propagates, exactly as the `Object.keys(params).map` would throw). -/
def serializeParams (algo : Nat) : List (String × ParamValue) → Except String Bytes
  | [] => .ok []
  | f :: rest => do
      let b ← serializeParam algo f
      let bs ← serializeParams algo rest
      .ok (b ++ bs)

/-- The emitted MPI encoding of a byte string: 2-octet bit length followed
by the stripped bytes (the `.ok` payload of `uint8ArrayToMPI`). -/
def mpiEnc (b : Bytes) : Bytes :=
  [byteArrayBitLength b / 256, byteArrayBitLength b % 256] ++ stripLeadingZeros b

/-- `parsePublicKeyParams` result. -/
structure ParsedPublic where
  read : Nat
  publicParams : PublicParams
deriving DecidableEq, Repr

/-- `parsePrivateKeyParams` result. -/
structure ParsedPrivate where
  read : Nat
  privateParams : PrivateParams
deriving DecidableEq, Repr

/-- `parsePublicKeyParams(algo, bytes)` (crypto/crypto.js). -/
def parsePublicKeyParams (algo : Nat) (bytes : Bytes) : Except String ParsedPublic := do
  if algo = pkRsaEncrypt ∨ algo = pkRsaEncryptSign ∨ algo = pkRsaSign then
    let n ← readMPI bytes
    let r1 := n.length + 2
    let e ← readMPI (bytes.drop r1)
    .ok ⟨r1 + (e.length + 2), .rsa n e⟩
  else if algo = pkDsa then
    let p ← readMPI bytes
    let r1 := p.length + 2
    let q ← readMPI (bytes.drop r1)
    let r2 := r1 + (q.length + 2)
    let g ← readMPI (bytes.drop r2)
    let r3 := r2 + (g.length + 2)
    let y ← readMPI (bytes.drop r3)
    .ok ⟨r3 + (y.length + 2), .dsa p q g y⟩
  else if algo = pkElgamal then
    let p ← readMPI bytes
    let r1 := p.length + 2
    let g ← readMPI (bytes.drop r1)
    let r2 := r1 + (g.length + 2)
    let y ← readMPI (bytes.drop r2)
    .ok ⟨r2 + (y.length + 2), .elgamal p g y⟩
  else if algo = pkEcdsa then
    let (oid, r0) ← oidRead bytes
    let Q ← readMPI (bytes.drop r0)
    .ok ⟨r0 + (Q.length + 2), .ecdsa oid Q⟩
  else if algo = pkEddsaLegacy then
    let (oid, r0) ← oidRead bytes
    if oid ≠ .ed25519Legacy then
      .error "Unexpected OID for eddsaLegacy"
    else
      let Q ← readMPI (bytes.drop r0)
      let Qpadded ← leftPad Q 33
      .ok ⟨r0 + (Q.length + 2), .eddsaLegacy oid Qpadded⟩
  else if algo = pkEcdh then
    let (oid, r0) ← oidRead bytes
    let Q ← readMPI (bytes.drop r0)
    let r1 := r0 + (Q.length + 2)
    let (kdfParams, r2) ← kdfParamsRead (bytes.drop r1)
    .ok ⟨r1 + r2, .ecdh oid Q kdfParams⟩
  else if algo = pkEd25519 ∨ algo = pkEd448 then
    let size ← getCurvePayloadSize algo
    let A ← readExactSubarray bytes 0 size
    .ok ⟨A.length, .eddsa A⟩
  else if algo = pkX25519 ∨ algo = pkX448 then
    let size ← getCurvePayloadSize algo
    let A ← readExactSubarray bytes 0 size
    .ok ⟨A.length, .ecdhX A⟩
  else if algo = pkHmac ∨ algo = pkAead then
    -- SymAlgoEnum / HashEnum: a single octet
    let c := bytes.headD 0
    -- digestLength = getHashByteLength(sha256) = 32
    let digest := (bytes.drop 1).take 32
    .ok ⟨1 + 32, .symmetric c digest⟩
  else if algo = pkPqcMlkemX25519 then
    let eccPublicKey ← readExactSubarray bytes 0 32
    let mlkemPublicKey ← readExactSubarray bytes 32 (32 + 1184)
    .ok ⟨32 + 1184, .mlkem eccPublicKey mlkemPublicKey⟩
  else if algo = pkPqcMldsaEd25519 then
    let eccPublicKey ← readExactSubarray bytes 0 32
    let mldsaPublicKey ← readExactSubarray bytes 32 (32 + 1952)
    .ok ⟨32 + 1952, .mldsa eccPublicKey mldsaPublicKey⟩
  else
    .error "Unknown public key encryption algorithm."

/-- `parsePrivateKeyParams(algo, bytes, publicParams)` (crypto/crypto.js).
The PQC seed expansions (`mlkemExpandSecretSeed` / `mldsaExpandSecretSeed`)
are required external primitives, passed as parameters. -/
def parsePrivateKeyParams (expandMlkemSeed expandMldsaSeed : Bytes → Bytes)
    (algo : Nat) (bytes : Bytes) (publicParams : PublicParams) :
    Except String ParsedPrivate := do
  if algo = pkRsaEncrypt ∨ algo = pkRsaEncryptSign ∨ algo = pkRsaSign then
    let d ← readMPI bytes
    let r1 := d.length + 2
    let p ← readMPI (bytes.drop r1)
    let r2 := r1 + (p.length + 2)
    let q ← readMPI (bytes.drop r2)
    let r3 := r2 + (q.length + 2)
    let u ← readMPI (bytes.drop r3)
    .ok ⟨r3 + (u.length + 2), .rsa d p q u⟩
  else if algo = pkDsa ∨ algo = pkElgamal then
    let x ← readMPI bytes
    .ok ⟨x.length + 2, .dsaElgamal x⟩
  else if algo = pkEcdsa ∨ algo = pkEcdh then
    match publicParams.oid? with
    | none => .error "Unknown curve"
    | some oid =>
      let d ← readMPI bytes
      let dPadded ← leftPad d oid.payloadSize
      .ok ⟨d.length + 2, .ecdsaEcdh dPadded⟩
  else if algo = pkEddsaLegacy then
    match publicParams.oid? with
    | none => .error "Unknown curve"
    | some oid =>
      if oid ≠ .ed25519Legacy then
        .error "Unexpected OID for eddsaLegacy"
      else
        let seed ← readMPI bytes
        let seedPadded ← leftPad seed oid.payloadSize
        .ok ⟨seed.length + 2, .eddsaLegacy seedPadded⟩
  else if algo = pkEd25519 ∨ algo = pkEd448 then
    let size ← getCurvePayloadSize algo
    let seed ← readExactSubarray bytes 0 size
    .ok ⟨seed.length, .eddsa seed⟩
  else if algo = pkX25519 ∨ algo = pkX448 then
    let size ← getCurvePayloadSize algo
    let k ← readExactSubarray bytes 0 size
    .ok ⟨k.length, .ecdhX k⟩
  else if algo = pkHmac then
    match publicParams with
    | .symmetric c _ =>
        let keySize ← getHashByteLength c
        let hashSeed := bytes.take 32
        let keyMaterial := (bytes.drop 32).take keySize
        .ok ⟨32 + keySize, .symmetric hashSeed keyMaterial⟩
    | _ => .error "Missing key parameters"
  else if algo = pkAead then
    match publicParams with
    | .symmetric c _ =>
        let cp ← getCipherParams c
        let hashSeed := bytes.take 32
        let keyMaterial := (bytes.drop 32).take cp.keySize
        .ok ⟨32 + cp.keySize, .symmetric hashSeed keyMaterial⟩
    | _ => .error "Missing key parameters"
  else if algo = pkPqcMlkemX25519 then
    let eccSecretKey ← readExactSubarray bytes 0 32
    let mlkemSeed ← readExactSubarray bytes 32 (32 + 64)
    let mlkemSecretKey := expandMlkemSeed mlkemSeed
    .ok ⟨32 + 64, .mlkem eccSecretKey mlkemSeed mlkemSecretKey⟩
  else if algo = pkPqcMldsaEd25519 then
    let eccSecretKey ← readExactSubarray bytes 0 32
    let mldsaSeed ← readExactSubarray bytes 32 (32 + 32)
    let mldsaSecretKey := expandMldsaSeed mldsaSeed
    .ok ⟨32 + 32, .mldsa eccSecretKey mldsaSeed mldsaSecretKey⟩
  else
    .error "Unknown public key encryption algorithm."

/-- A canonical MPI operand as produced by `generateParams`' delegated
primitives: nonempty, minimally encoded (nonzero leading octet), octet
values, and bit length expressible in two octets. -/
def WFMPI (b : Bytes) : Prop :=
  b ≠ [] ∧ b.headD 0 ≠ 0 ∧ b.length ≤ 8191 ∧ ∀ x ∈ b, x < 256

/-- A fixed-size elliptic secret or point as produced by `generateParams`:
exactly `size` octets, not all zero, octet values. -/
def WFEC (b : Bytes) (size : Nat) : Prop :=
  stripLeadingZeros b ≠ [] ∧ b.length = size ∧ size ≤ 8191 ∧ ∀ x ∈ b, x < 256

/-- The shape and sizes of a private parameter record produced by
`generateParams(algo, …)` (the sizes delegated to external primitives are
modelled from the spec's tables in §3 and §6). -/
def wfPrivateFor (algo : Nat) (priv : PrivateParams) (pub : PublicParams) : Prop :=
  match priv with
  | .rsa d p q u =>
      (algo = pkRsaEncrypt ∨ algo = pkRsaEncryptSign ∨ algo = pkRsaSign) ∧
        WFMPI d ∧ WFMPI p ∧ WFMPI q ∧ WFMPI u
  | .dsaElgamal x => (algo = pkDsa ∨ algo = pkElgamal) ∧ WFMPI x
  | .ecdsaEcdh d =>
      (algo = pkEcdsa ∨ algo = pkEcdh) ∧
        ∃ oid, pub.oid? = some oid ∧ WFEC d oid.payloadSize
  | .eddsaLegacy seed =>
      algo = pkEddsaLegacy ∧ pub.oid? = some .ed25519Legacy ∧ WFEC seed 32
  | .eddsa seed =>
      (algo = pkEd25519 ∧ seed.length = 32) ∨ (algo = pkEd448 ∧ seed.length = 57)
  | .ecdhX k =>
      (algo = pkX25519 ∧ k.length = 32) ∨ (algo = pkX448 ∧ k.length = 56)
  | .symmetric hashSeed keyMaterial =>
      hashSeed.length = 32 ∧
      ∃ c digest, pub = .symmetric c digest ∧
        ((algo = pkHmac ∧ ∃ n, getHashByteLength c = .ok n ∧ keyMaterial.length = n) ∨
         (algo = pkAead ∧ ∃ cp, getCipherParams c = .ok cp ∧ keyMaterial.length = cp.keySize))
  | .mlkem ecc seed _ => algo = pkPqcMlkemX25519 ∧ ecc.length = 32 ∧ seed.length = 64
  | .mldsa ecc seed _ => algo = pkPqcMldsaEd25519 ∧ ecc.length = 32 ∧ seed.length = 32

/-- The shape and sizes of a public parameter record produced by
`generateParams(algo, …)`. -/
def wfPublicFor (algo : Nat) (pub : PublicParams) : Prop :=
  match pub with
  | .rsa n e =>
      (algo = pkRsaEncrypt ∨ algo = pkRsaEncryptSign ∨ algo = pkRsaSign) ∧ WFMPI n ∧ WFMPI e
  | .dsa p q g y => algo = pkDsa ∧ WFMPI p ∧ WFMPI q ∧ WFMPI g ∧ WFMPI y
  | .elgamal p g y => algo = pkElgamal ∧ WFMPI p ∧ WFMPI g ∧ WFMPI y
  | .ecdsa _ Q => algo = pkEcdsa ∧ WFMPI Q
  | .eddsaLegacy oid Q => algo = pkEddsaLegacy ∧ oid = .ed25519Legacy ∧ WFEC Q 33
  | .ecdh _ Q _ => algo = pkEcdh ∧ WFMPI Q
  | .eddsa A =>
      (algo = pkEd25519 ∧ A.length = 32) ∨ (algo = pkEd448 ∧ A.length = 57)
  | .ecdhX A =>
      (algo = pkX25519 ∧ A.length = 32) ∨ (algo = pkX448 ∧ A.length = 56)
  | .symmetric _ digest => (algo = pkHmac ∨ algo = pkAead) ∧ digest.length = 32
  | .mlkem e m => algo = pkPqcMlkemX25519 ∧ e.length = 32 ∧ m.length = 1184
  | .mldsa e m => algo = pkPqcMldsaEd25519 ∧ e.length = 32 ∧ m.length = 1952

/-- Re-derivation of the excluded expanded PQC secret keys on parse: the
non-excluded fields are untouched. -/
def reparsedPrivate (expandMlkemSeed expandMldsaSeed : Bytes → Bytes) :
    PrivateParams → PrivateParams
  | .mlkem ecc seed _ => .mlkem ecc seed (expandMlkemSeed seed)
  | .mldsa ecc seed _ => .mldsa ecc seed (expandMldsaSeed seed)
  | p => p

/-- The output which claim C2 predicts for `decodeSessionKey` when a
`randomSessionKey` fallback is supplied, stated from the claim's words:
the decrypted session key exactly when the 2-byte checksum is valid and
the decrypted key's cipher algorithm and length equal those of the random
session key; on any mismatch the random session key bytes (and, for v3,
the random cipher algorithm). -/
def c2ExpectedOutput (version : Nat) (decryptedData : Bytes)
    (r : RandomSessionKeyFallback) : DecodedSessionKey :=
  let result := decryptedData.take (decryptedData.length - 2)
  let decryptedSK : DecodedSessionKey :=
    if version = 6 then ⟨none, result⟩ else ⟨result.head?, result.tail⟩
  if decryptedData.drop (decryptedData.length - 2) =
       writeChecksum (result.drop (result.length % 8)) ∧
     decryptedSK.sessionKeyAlgorithm = some r.sessionKeyAlgorithm ∧
     decryptedSK.sessionKey.length = r.sessionKey.length then
    ⟨if version = 6 then none else decryptedSK.sessionKeyAlgorithm,
     decryptedSK.sessionKey⟩
  else
    ⟨if version = 6 then none else some r.sessionKeyAlgorithm, r.sessionKey⟩

/-- S2K specifier kinds (type/s2k.js, not in the extracted sources).
Modelled from the spec: Simple, Salted, Iterated, Argon2 and GNU-Dummy
specifiers, distinguished by their `type` string. -/
inductive S2K
  | simple
  | salted
  | iterated
  | argon2
  | gnuDummy
deriving DecidableEq, Repr

/-- The `s2k.type` string of each specifier class. -/
def S2K.typeName : S2K → String
  | .simple => "simple"
  | .salted => "salted"
  | .iterated => "iterated"
  | .argon2 => "argon2"
  | .gnuDummy => "gnu-dummy"

/-- `produceEncryptionKey(keyVersion, s2k, passphrase, cipherAlgo, aeadMode,
serializedPacketTag, isLegacyAEAD)` (packet/secret_key.js). The S2K key
derivation (`s2k.produceKey`) and `computeHKDF` are external crypto
primitives, passed as parameters. -/
def produceEncryptionKey (produceKey : S2K → String → Nat → Bytes)
    (hkdf : Nat → Bytes → Bytes → Bytes → Nat → Bytes)
    (keyVersion : Nat) (s2k : S2K) (passphrase : String) (cipherAlgo : Nat)
    (aeadMode : Option Nat) (serializedPacketTag : Bytes)
    (isLegacyAEAD : Bool) : Except String Bytes :=
  if s2k.typeName = "argon2" ∧ aeadMode = none then
    .error "Using Argon2 S2K without AEAD is not allowed"
  else if s2k.typeName = "simple" ∧ keyVersion = 6 then
    .error "Using Simple S2K with version 6 keys is not allowed"
  else
    match getCipherParams cipherAlgo with
    | .error e => .error e
    | .ok cp =>
        let derivedKey := produceKey s2k passphrase cp.keySize
        match aeadMode with
        | none => .ok derivedKey
        | some m =>
            if keyVersion = 5 ∨ isLegacyAEAD = true then .ok derivedKey
            else
              .ok (hkdf hashSha256 derivedKey []
                (serializedPacketTag ++ [keyVersion, cipherAlgo, m]) cp.keySize)

/-- JS-destructuring accessors on public parameter records, as used by the
crypto/signature.js dispatcher: a field absent from the record reads as
`undefined`, modelled as the empty byte string (respectively 0 for the
symmetric cipher enum). -/
def PublicParams.n : PublicParams → Bytes
  | .rsa n _ => n
  | _ => []

def PublicParams.e : PublicParams → Bytes
  | .rsa _ e => e
  | _ => []

def PublicParams.p : PublicParams → Bytes
  | .dsa p _ _ _ => p
  | .elgamal p _ _ => p
  | _ => []

def PublicParams.q : PublicParams → Bytes
  | .dsa _ q _ _ => q
  | _ => []

def PublicParams.g : PublicParams → Bytes
  | .dsa _ _ g _ => g
  | .elgamal _ g _ => g
  | _ => []

def PublicParams.Q : PublicParams → Bytes
  | .ecdsa _ Q => Q
  | .eddsaLegacy _ Q => Q
  | .ecdh _ Q _ => Q
  | _ => []

def PublicParams.A : PublicParams → Bytes
  | .eddsa A => A
  | .ecdhX A => A
  | _ => []

def PublicParams.cipherValue : PublicParams → Nat
  | .symmetric c _ => c
  | _ => 0

def PublicParams.eccPublicKey : PublicParams → Bytes
  | .mlkem e _ => e
  | .mldsa e _ => e
  | _ => []

def PublicParams.mldsaPublicKey : PublicParams → Bytes
  | .mldsa _ m => m
  | _ => []

/-- JS-destructuring accessors on private parameter records. -/
def PrivateParams.d : PrivateParams → Bytes
  | .rsa d _ _ _ => d
  | .ecdsaEcdh d => d
  | _ => []

def PrivateParams.p : PrivateParams → Bytes
  | .rsa _ p _ _ => p
  | _ => []

def PrivateParams.q : PrivateParams → Bytes
  | .rsa _ _ q _ => q
  | _ => []

def PrivateParams.u : PrivateParams → Bytes
  | .rsa _ _ _ u => u
  | _ => []

def PrivateParams.x : PrivateParams → Bytes
  | .dsaElgamal x => x
  | _ => []

def PrivateParams.seed : PrivateParams → Bytes
  | .eddsaLegacy seed => seed
  | .eddsa seed => seed
  | _ => []

def PrivateParams.keyMaterial : PrivateParams → Bytes
  | .symmetric _ keyMaterial => keyMaterial
  | _ => []

def PrivateParams.eccSecretKey : PrivateParams → Bytes
  | .mlkem ecc _ _ => ecc
  | .mldsa ecc _ _ => ecc
  | _ => []

def PrivateParams.mldsaSecretKey : PrivateParams → Bytes
  | .mldsa _ _ sk => sk
  | _ => []

/-- A signature parameter object as passed to `verify` (the fields the
dispatcher branches read: MPI components `r`/`s` and the HMAC
`mac.data`). -/
structure SignatureObject where
  r : Bytes
  s : Bytes
  macData : Bytes
deriving DecidableEq, Repr

/-- The per-algorithm signing and verification delegates called by
crypto/signature.js (the rsa, dsa, elliptic, hmac and post-quantum
modules): external primitives, passed as parameters; `Sig` is the type of
produced signature objects. -/
structure SignatureDelegates (Sig : Type) where
  rsaSign : Nat → Bytes → Bytes → Bytes → Bytes → Bytes → Bytes → Bytes → Bytes → Sig
  dsaSign : Nat → Bytes → Bytes → Bytes → Bytes → Bytes → Sig
  ecdsaSign : Curve → Nat → Bytes → Bytes → Bytes → Bytes → Sig
  eddsaLegacySign : Curve → Nat → Bytes → Bytes → Bytes → Bytes → Sig
  eddsaSign : Nat → Nat → Bytes → Bytes → Bytes → Bytes → Sig
  hmacSign : Nat → Bytes → Bytes → Sig
  pqcSign : Nat → Nat → Bytes → Bytes → Bytes → Bytes → Sig
  rsaVerify : Nat → Bytes → Bytes → Bytes → Bytes → Bytes → Bool
  dsaVerify : Nat → Bytes → Bytes → Bytes → Bytes → Bytes → Bytes → Bytes → Bool
  ecdsaVerify : Curve → Nat → Bytes → Bytes → Bytes → Bytes → Bytes → Bool
  eddsaLegacyVerify : Curve → Nat → Bytes → Bytes → Bytes → Bytes → Bytes → Bool
  eddsaVerify : Nat → Nat → SignatureObject → Bytes → Bytes → Bytes → Bool
  hmacVerify : Nat → Bytes → Bytes → Bytes → Bool
  pqcVerify : Nat → Nat → Bytes → Bytes → Bytes → SignatureObject → Bool

/-- `eddsa.getPreferredHashAlgo` (crypto/public_key/elliptic/eddsa.js; the
extracted copy of that module predates Ed448 support). Modelled from the
spec: SHA-256 for Ed25519, SHA-512 for Ed448; other algorithms are
rejected. -/
def eddsaGetPreferredHashAlgo (algo : Nat) : Except String Nat :=
  if algo = pkEd25519 then .ok hashSha256
  else if algo = pkEd448 then .ok hashSha512
  else .error "Unknown EdDSA algo"

/-- `isCompatibleHashAlgo(signatureAlgo, hashAlgo)` of the post-quantum
signature module: the hash digest must be at least 256 bits. -/
def isCompatibleHashAlgo (signatureAlgo hashAlgo : Nat) : Except String Bool :=
  if signatureAlgo = pkPqcMldsaEd25519 then
    match getHashByteLength hashAlgo with
    | .error e => .error e
    | .ok n => .ok (decide (32 ≤ n))
  else .error "Unsupported signature algorithm"

/-- `sign(algo, hashAlgo, publicKeyParams, privateKeyParams, data, hashed)`
(crypto/signature.js). -/
def signDispatch {Sig : Type} (D : SignatureDelegates Sig)
    (algo hashAlgo : Nat) (publicKeyParams : Option PublicParams)
    (privateKeyParams : Option PrivateParams) (data hashed : Bytes) :
    Except String Sig :=
  match publicKeyParams, privateKeyParams with
  | some pub, some priv =>
      if algo = pkRsaEncryptSign ∨ algo = pkRsaEncrypt ∨ algo = pkRsaSign then
        .ok (D.rsaSign hashAlgo data pub.n pub.e priv.d priv.p priv.q priv.u hashed)
      else if algo = pkDsa then
        .ok (D.dsaSign hashAlgo hashed pub.g pub.p pub.q priv.x)
      else if algo = pkElgamal then
        .error "Signing with Elgamal is not defined in the OpenPGP standard."
      else if algo = pkEcdsa then
        match pub.oid? with
        | none => .error "Unknown curve"
        | some oid => .ok (D.ecdsaSign oid hashAlgo data pub.Q priv.d hashed)
      else if algo = pkEddsaLegacy then
        match getHashByteLength hashAlgo, getHashByteLength hashSha256 with
        | .ok hl, .ok pl =>
            if hl < pl then .error "Hash algorithm too weak for EdDSALegacy."
            else
              match pub.oid? with
              | none => .error "Unknown curve"
              | some oid =>
                  .ok (D.eddsaLegacySign oid hashAlgo data pub.Q priv.seed hashed)
        | .error e, _ => .error e
        | _, .error e => .error e
      else if algo = pkEd25519 ∨ algo = pkEd448 then
        match eddsaGetPreferredHashAlgo algo with
        | .error e => .error e
        | .ok pref =>
            match getHashByteLength hashAlgo, getHashByteLength pref with
            | .ok hl, .ok pl =>
                if hl < pl then .error "Hash algorithm too weak for EdDSA."
                else .ok (D.eddsaSign algo hashAlgo data pub.A priv.seed hashed)
            | .error e, _ => .error e
            | _, .error e => .error e
      else if algo = pkHmac then
        .ok (D.hmacSign pub.cipherValue priv.keyMaterial hashed)
      else if algo = pkPqcMldsaEd25519 then
        match isCompatibleHashAlgo algo hashAlgo with
        | .error e => .error e
        | .ok compatible =>
            if compatible = false then
              .error "Unexpected hash algorithm for PQC signature: digest size too short"
            else
              .ok (D.pqcSign algo hashAlgo priv.eccSecretKey pub.eccPublicKey
                priv.mldsaSecretKey hashed)
      else .error "Unknown signature algorithm."
  | _, _ => .error "Missing key parameters"

/-- `verify(algo, hashAlgo, signature, publicParams, privateParams, data,
hashed)` (crypto/signature.js). -/
def verifyDispatch {Sig : Type} (D : SignatureDelegates Sig)
    (algo hashAlgo : Nat) (signature : SignatureObject) (pub : PublicParams)
    (privateParams : Option PrivateParams) (data hashed : Bytes) :
    Except String Bool :=
  if algo = pkRsaEncryptSign ∨ algo = pkRsaEncrypt ∨ algo = pkRsaSign then
    match leftPad signature.s pub.n.length with
    | .error e => .error e
    | .ok s => .ok (D.rsaVerify hashAlgo data s pub.n pub.e hashed)
  else if algo = pkDsa then
    .ok (D.dsaVerify hashAlgo signature.r signature.s hashed pub.g pub.p pub.q
      (match pub with | .dsa _ _ _ y => y | _ => []))
  else if algo = pkEcdsa then
    match pub.oid? with
    | none => .error "Unknown curve"
    | some oid =>
        match leftPad signature.r oid.payloadSize, leftPad signature.s oid.payloadSize with
        | .ok r, .ok s => .ok (D.ecdsaVerify oid hashAlgo r s data pub.Q hashed)
        | .error e, _ => .error e
        | _, .error e => .error e
  else if algo = pkEddsaLegacy then
    match getHashByteLength hashAlgo, getHashByteLength hashSha256 with
    | .ok hl, .ok pl =>
        if hl < pl then .error "Hash algorithm too weak for EdDSALegacy."
        else
          match pub.oid? with
          | none => .error "Unknown curve"
          | some oid =>
              match leftPad signature.r oid.payloadSize,
                  leftPad signature.s oid.payloadSize with
              | .ok r, .ok s =>
                  .ok (D.eddsaLegacyVerify oid hashAlgo r s data pub.Q hashed)
              | .error e, _ => .error e
              | _, .error e => .error e
    | .error e, _ => .error e
    | _, .error e => .error e
  else if algo = pkEd25519 ∨ algo = pkEd448 then
    match eddsaGetPreferredHashAlgo algo with
    | .error e => .error e
    | .ok pref =>
        match getHashByteLength hashAlgo, getHashByteLength pref with
        | .ok hl, .ok pl =>
            if hl < pl then .error "Hash algorithm too weak for EdDSA."
            else .ok (D.eddsaVerify algo hashAlgo signature data pub.A hashed)
        | .error e, _ => .error e
        | _, .error e => .error e
  else if algo = pkHmac then
    match privateParams with
    | none =>
        .error "Cannot verify HMAC signature with symmetric key missing private parameters"
    | some priv =>
        .ok (D.hmacVerify pub.cipherValue priv.keyMaterial signature.macData hashed)
  else if algo = pkPqcMldsaEd25519 then
    match isCompatibleHashAlgo algo hashAlgo with
    | .error e => .error e
    | .ok compatible =>
        if compatible = false then
          .error "Unexpected hash algorithm for PQC signature: digest size too short"
        else
          .ok (D.pqcVerify algo hashAlgo pub.eccPublicKey pub.mldsaPublicKey
            hashed signature)
  else .error "Unknown signature algorithm."

/-- A concrete delegate instance producing unit signatures, for evaluating
the dispatcher on concrete inputs. -/
def trivialDelegates : SignatureDelegates Unit where
  rsaSign := fun _ _ _ _ _ _ _ _ _ => ()
  dsaSign := fun _ _ _ _ _ _ => ()
  ecdsaSign := fun _ _ _ _ _ _ => ()
  eddsaLegacySign := fun _ _ _ _ _ _ => ()
  eddsaSign := fun _ _ _ _ _ _ => ()
  hmacSign := fun _ _ _ => ()
  pqcSign := fun _ _ _ _ _ _ => ()
  rsaVerify := fun _ _ _ _ _ _ => true
  dsaVerify := fun _ _ _ _ _ _ _ _ => true
  ecdsaVerify := fun _ _ _ _ _ _ _ => true
  eddsaLegacyVerify := fun _ _ _ _ _ _ _ => true
  eddsaVerify := fun _ _ _ _ _ _ => true
  hmacVerify := fun _ _ _ _ => true
  pqcVerify := fun _ _ _ _ _ _ => true

/-- The per-algorithm public-key encryption/decryption delegates called by
`publicKeyEncrypt` / `publicKeyDecrypt` (crypto/crypto.js): external
primitives of the rsa, elgamal, elliptic, AEAD-mode and post-quantum
modules, the random generator, and the `config.preferredAEADAlgorithm`
setting, passed as parameters. -/
structure PKCryptoPrims where
  rsaEncrypt : Bytes → Bytes → Bytes → Bytes
  elgamalEncrypt : Bytes → Bytes → Bytes → Bytes → Bytes × Bytes
  ecdhEncrypt : Curve → KDFParams → Bytes → Bytes → Bytes → Bytes × Bytes
  ecdhXEncrypt : Nat → Bytes → Bytes → Bytes × Bytes
  aeadEncrypt : Nat → Nat → Bytes → Bytes → Bytes → Bytes
  pqcEncrypt : Nat → Bytes → Bytes → Bytes → Bytes × Bytes × Bytes
  randomBytes : Nat → Bytes
  preferredAEADAlgorithm : Nat
  rsaDecrypt : Bytes → Bytes → Bytes → Bytes → Bytes → Bytes → Bytes →
    Option Bytes → Except String Bytes
  elgamalDecrypt : Bytes → Bytes → Bytes → Bytes → Option Bytes → Except String Bytes
  ecdhDecrypt : Curve → KDFParams → Bytes → Bytes → Bytes → Bytes → Bytes →
    Except String Bytes
  ecdhXDecrypt : Nat → Bytes → Bytes → Bytes → Bytes → Except String Bytes
  aeadDecrypt : Nat → Nat → Bytes → Bytes → Bytes → Except String Bytes
  pqcDecrypt : Nat → Bytes → Bytes → Bytes → Bytes → Bytes → Bytes → Bytes →
    Except String Bytes

/-- `publicKeyEncrypt(keyAlgo, symmetricAlgo, publicParams, privateParams,
data, fingerprint)` (crypto/crypto.js). A parameter-record field absent
from the supplied record reads as JS `undefined`, modelled by the empty
default; the guard `symmetricAlgo && !util.isAES(symmetricAlgo)` tests JS
truthiness, so the zero (plaintext) code does not trigger it. The
`default` branch returns the source's empty array, modelled as `none`. -/
def publicKeyEncrypt (P : PKCryptoPrims) (keyAlgo : Nat) (symmetricAlgo : Option Nat)
    (publicParams : PublicParams) (privateParams : Option PrivateParams)
    (data fingerprint : Bytes) : Except String (Option EncSessionKeyParams) :=
  if keyAlgo = pkRsaEncrypt ∨ keyAlgo = pkRsaEncryptSign then
    .ok (some (.rsa (P.rsaEncrypt data publicParams.n publicParams.e)))
  else if keyAlgo = pkElgamal then
    .ok (some (.elgamal
      (P.elgamalEncrypt data publicParams.p publicParams.g
        (match publicParams with | .elgamal _ _ y => y | _ => [])).1
      (P.elgamalEncrypt data publicParams.p publicParams.g
        (match publicParams with | .elgamal _ _ y => y | _ => [])).2))
  else if keyAlgo = pkEcdh then
    match publicParams with
    | .ecdh oid Q kdfParams =>
        .ok (some (.ecdh (P.ecdhEncrypt oid kdfParams data Q fingerprint).1
          (P.ecdhEncrypt oid kdfParams data Q fingerprint).2))
    | _ => .error "Unknown curve"
  else if keyAlgo = pkX25519 ∨ keyAlgo = pkX448 then
    if (match symmetricAlgo with
        | some a => decide (a ≠ 0) && !isAES a
        | none => false) = true then
      .error "X25519 and X448 keys can only encrypt AES session keys"
    else
      .ok (some (.ecdhX (P.ecdhXEncrypt keyAlgo data publicParams.A).1
        symmetricAlgo (P.ecdhXEncrypt keyAlgo data publicParams.A).2))
  else if keyAlgo = pkAead then
    match privateParams with
    | none => .error "Cannot encrypt with symmetric key missing private parameters"
    | some priv =>
        match getAEADModeIvLength P.preferredAEADAlgorithm with
        | .error e => .error e
        | .ok ivLength =>
            .ok (some (.aead P.preferredAEADAlgorithm (P.randomBytes ivLength)
              (P.aeadEncrypt P.preferredAEADAlgorithm publicParams.cipherValue
                priv.keyMaterial data (P.randomBytes ivLength))))
  else if keyAlgo = pkPqcMlkemX25519 then
    .ok (some (.pqc
      (P.pqcEncrypt keyAlgo publicParams.eccPublicKey
        (match publicParams with | .mlkem _ m => m | _ => []) data).1
      (P.pqcEncrypt keyAlgo publicParams.eccPublicKey
        (match publicParams with | .mlkem _ m => m | _ => []) data).2.1
      symmetricAlgo
      (P.pqcEncrypt keyAlgo publicParams.eccPublicKey
        (match publicParams with | .mlkem _ m => m | _ => []) data).2.2))
  else .ok none

/-- `publicKeyDecrypt(keyAlgo, publicKeyParams, privateKeyParams,
sessionKeyParams, fingerprint, randomPayload)` (crypto/crypto.js). The
x25519/x448 branch checks `C.algorithm !== null` (a strict null
comparison, unlike the encrypt-side truthiness test). -/
def publicKeyDecrypt (P : PKCryptoPrims) (keyAlgo : Nat)
    (publicKeyParams : PublicParams) (privateKeyParams : PrivateParams)
    (sessionKeyParams : EncSessionKeyParams) (fingerprint : Bytes)
    (randomPayload : Option Bytes) : Except String Bytes :=
  if keyAlgo = pkRsaEncryptSign ∨ keyAlgo = pkRsaEncrypt then
    P.rsaDecrypt (match sessionKeyParams with | .rsa c => c | .aead _ _ c => c | _ => [])
      publicKeyParams.n publicKeyParams.e privateKeyParams.d privateKeyParams.p
      privateKeyParams.q privateKeyParams.u randomPayload
  else if keyAlgo = pkElgamal then
    P.elgamalDecrypt (match sessionKeyParams with | .elgamal c1 _ => c1 | _ => [])
      (match sessionKeyParams with | .elgamal _ c2 => c2 | _ => [])
      publicKeyParams.p privateKeyParams.x randomPayload
  else if keyAlgo = pkEcdh then
    match publicKeyParams with
    | .ecdh oid Q kdfParams =>
        P.ecdhDecrypt oid kdfParams
          (match sessionKeyParams with | .ecdh V _ => V | _ => [])
          (match sessionKeyParams with | .ecdh _ C => C | _ => [])
          Q privateKeyParams.d fingerprint
    | _ => .error "Unknown curve"
  else if keyAlgo = pkX25519 ∨ keyAlgo = pkX448 then
    if (match sessionKeyParams.cAlgorithm with
        | some a => !isAES a
        | none => false) = true then
      .error "AES session key expected"
    else
      P.ecdhXDecrypt keyAlgo
        (match sessionKeyParams with | .ecdhX e _ _ => e | _ => [])
        (match sessionKeyParams with | .ecdhX _ _ w => w | .pqc _ _ _ w => w | _ => [])
        publicKeyParams.A
        (match privateKeyParams with | .ecdhX k => k | _ => [])
  else if keyAlgo = pkAead then
    P.aeadDecrypt (match sessionKeyParams with | .aead m _ _ => m | _ => 0)
      publicKeyParams.cipherValue privateKeyParams.keyMaterial
      (match sessionKeyParams with | .aead _ _ c => c | _ => [])
      (match sessionKeyParams with | .aead _ iv _ => iv | _ => [])
  else if keyAlgo = pkPqcMlkemX25519 then
    P.pqcDecrypt keyAlgo
      (match sessionKeyParams with | .pqc e _ _ _ => e | _ => [])
      (match sessionKeyParams with | .pqc _ m _ _ => m | _ => [])
      privateKeyParams.eccSecretKey publicKeyParams.eccPublicKey
      (match privateKeyParams with | .mlkem _ _ sk => sk | _ => [])
      (match publicKeyParams with | .mlkem _ m => m | _ => [])
      (match sessionKeyParams with | .ecdhX _ _ w => w | .pqc _ _ _ w => w | _ => [])
  else .error "Unknown public key encryption algorithm."

/-- A concrete primitive instance with empty outputs, for evaluating the
encryption dispatcher on concrete inputs. -/
def trivialPKPrims : PKCryptoPrims where
  rsaEncrypt := fun _ _ _ => []
  elgamalEncrypt := fun _ _ _ _ => ([], [])
  ecdhEncrypt := fun _ _ _ _ _ => ([], [])
  ecdhXEncrypt := fun _ _ _ => ([], [])
  aeadEncrypt := fun _ _ _ _ _ => []
  pqcEncrypt := fun _ _ _ _ => ([], [], [])
  randomBytes := fun n => List.replicate n 0
  preferredAEADAlgorithm := aeadEax
  rsaDecrypt := fun _ _ _ _ _ _ _ _ => .ok []
  elgamalDecrypt := fun _ _ _ _ _ => .ok []
  ecdhDecrypt := fun _ _ _ _ _ _ _ => .ok []
  ecdhXDecrypt := fun _ _ _ _ _ => .ok []
  aeadDecrypt := fun _ _ _ _ _ => .ok []
  pqcDecrypt := fun _ _ _ _ _ _ _ _ => .ok []

/-- The mutable state of a Secret-Key packet (packet/secret_key.js):
nullable JS fields are `Option`s (`isEncrypted` is three-valued: `null`
before read/after makeDummy, else a boolean). -/
structure SecretKeyPacket where
  version : Nat
  algorithm : Nat
  publicParams : PublicParams
  keyMaterial : Option Bytes
  isEncrypted : Option Bool
  s2kUsage : Nat
  s2k : Option S2K
  symmetric : Option Nat
  aead : Option Nat
  isLegacyAEAD : Option Bool
  privateParams : Option PrivateParams
  usedModernAEAD : Option Bool
  unparseableKeyMaterial : Option Bytes
  iv : Bytes
deriving DecidableEq, Repr

/-- `isDummy()`: the S2K is present and of gnu-dummy type. -/
def SecretKeyPacket.isDummy (p : SecretKeyPacket) : Bool :=
  p.s2k = some S2K.gnuDummy

/-- `isMissingSecretKeyMaterial()`. -/
def SecretKeyPacket.isMissingSecretKeyMaterial (p : SecretKeyPacket) : Bool :=
  p.unparseableKeyMaterial ≠ none || p.isDummy

/-- The external primitives and configuration consumed by the Secret-Key
packet operations (S2K key derivation, HKDF, randomness, AEAD and CFB
modes, SHA-1, the PQC seed expansions, the fresh salted S2K from config,
the serialized packet tag and public-key prefix, and config flags),
passed as parameters. -/
structure SecretKeyCrypto where
  produceKey : S2K → String → Nat → Bytes
  hkdf : Nat → Bytes → Bytes → Bytes → Nat → Bytes
  randomBytes : Nat → Bytes
  aeadEncrypt : Nat → Nat → Bytes → Bytes → Bytes → Bytes → Bytes
  aeadDecrypt : Nat → Nat → Bytes → Bytes → Bytes → Bytes → Except String Bytes
  cfbEncrypt : Nat → Bytes → Bytes → Bytes → Bytes
  cfbDecrypt : Nat → Bytes → Bytes → Bytes → Bytes
  sha1 : Bytes → Bytes
  expandMlkemSeed : Bytes → Bytes
  expandMldsaSeed : Bytes → Bytes
  freshS2K : S2K
  serializedPacketTag : Bytes
  publicKeyBytes : Bytes
  aeadProtect : Bool
  preferredAEADAlgorithm : Nat
  parseAEADEncryptedV4KeysAsLegacy : Bool

/-- The result of `read`'s s2k/IV section (its try-block): the parsed
optional fields and the index after them, or the gnu-dummy early return.
An error carries the index reached, since the catch handler continues
with the partially-advanced cursor. -/
inductive S2KSectionResult
  | gnuDummy (symmetric aead : Option Nat) (s2k : S2K)
  | fields (symmetric aead : Option Nat) (s2k : Option S2K)
      (isLegacyAEAD usedModernAEAD : Option Bool) (iv : Bytes) (next : Nat)
deriving DecidableEq, Repr

/-- The IV part of `read`'s try-block (entered when `s2kUsage ≠ 0`):
legacy-AEAD detection, then a blockSize-long IV for CFB/legacy-AEAD or an
AEAD-nonce-long IV for modern AEAD. -/
def readIVSection (parseAEADEncryptedV4KeysAsLegacy : Bool)
    (version s2kUsage : Nat) (symmetricV : Nat) (aead : Option Nat)
    (s2k : Option S2K) (bytes : Bytes) (i : Nat) :
    Except (String × Nat) S2KSectionResult :=
  let isLegacyAEAD : Bool :=
    s2kUsage = 253 &&
      (version = 5 || (version = 4 && parseAEADEncryptedV4KeysAsLegacy))
  if s2kUsage ≠ 253 ∨ isLegacyAEAD = true then
    match getCipherParams symmetricV with
    | .error e => .error (e, i)
    | .ok cp =>
        let iv := (bytes.drop i).take cp.blockSize
        .ok (.fields (some symmetricV) aead s2k (some isLegacyAEAD) (some false)
          iv (i + iv.length))
  else
    match getAEADModeIvLength (aead.getD 0) with
    | .error e => .error (e, i)
    | .ok ivLength =>
        let iv := (bytes.drop i).take ivLength
        .ok (.fields (some symmetricV) aead s2k (some isLegacyAEAD) (some true)
          iv (i + iv.length))

/-- The whole try-block of `read`: optional symmetric/aead octets, the S2K
specifier (`readS2K` is the external `newS2KFromType` + `s2k.read`,
returning the specifier and its length), the gnu-dummy early return, and
the IV. -/
def s2kSection (readS2K : Bytes → Except String (S2K × Nat))
    (parseAEADEncryptedV4KeysAsLegacy : Bool) (version s2kUsage : Nat)
    (bytes : Bytes) (i0 : Nat) : Except (String × Nat) S2KSectionResult :=
  if s2kUsage = 255 ∨ s2kUsage = 254 ∨ s2kUsage = 253 then
    let symmetricV := byteAt bytes i0
    let i1 := i0 + 1
    let aead? : Option Nat := if s2kUsage = 253 then some (byteAt bytes i1) else none
    let i2 := if s2kUsage = 253 then i1 + 1 else i1
    let i3 := if version = 6 then i2 + 1 else i2
    match readS2K (bytes.drop i3) with
    | .error e => .error (e, i3)
    | .ok (s2k, used) =>
        if s2k = .gnuDummy then .ok (.gnuDummy (some symmetricV) aead? s2k)
        else
          readIVSection parseAEADEncryptedV4KeysAsLegacy version s2kUsage
            symmetricV aead? (some s2k) bytes (i3 + used)
  else if s2kUsage ≠ 0 then
    readIVSection parseAEADEncryptedV4KeysAsLegacy version s2kUsage
      s2kUsage none none bytes i0
  else .ok (.fields none none none none none [] i0)

/-- Errors of `parsePrivateKeyParams` that the source throws as
`UnsupportedError` (and `read` re-throws instead of masking as
`Error reading MPIs`): the unknown-algorithm default and the
unsupported-curve check. -/
def isUnsupportedError (msg : String) : Bool :=
  msg = "Unknown public key encryption algorithm." || msg = "Unknown curve OID"

/-- `SecretKeyPacket.read(bytes)` over the secret-key section (the bytes
after the public-key prefix), building the packet from the constructor
defaults. The catch path preserves the raw section as
`unparseableKeyMaterial` (the partial field mutations before the failing
step are not modelled). -/
def secretKeyRead (readS2K : Bytes → Except String (S2K × Nat))
    (expandMlkemSeed expandMldsaSeed : Bytes → Bytes)
    (parseAEADEncryptedV4KeysAsLegacy : Bool)
    (version algorithm : Nat) (pub : PublicParams) (bytes : Bytes) :
    Except String SecretKeyPacket :=
  let s2kUsage := byteAt bytes 0
  let i1 := if version = 5 then 2 else 1
  let i2 := if version = 6 ∧ s2kUsage ≠ 0 then i1 + 1 else i1
  let base : SecretKeyPacket :=
    { version := version, algorithm := algorithm, publicParams := pub,
      keyMaterial := none, isEncrypted := none, s2kUsage := s2kUsage,
      s2k := none, symmetric := none, aead := none, isLegacyAEAD := none,
      privateParams := none, usedModernAEAD := none,
      unparseableKeyMaterial := none, iv := [] }
  match s2kSection readS2K parseAEADEncryptedV4KeysAsLegacy version s2kUsage
      bytes i2 with
  | .ok (.gnuDummy symmetric aead s2k) =>
      .ok { base with symmetric := symmetric, aead := aead, s2k := some s2k }
  | .error (e, ifail) =>
      if s2kUsage = 0 then .error e
      else
        .ok { base with
          unparseableKeyMaterial := some bytes,
          keyMaterial := some (bytes.drop (if version = 5 then ifail + 4 else ifail)),
          isEncrypted := some true }
  | .ok (.fields symmetric aead s2k isLegacyAEAD usedModernAEAD iv next) =>
      let keyMaterial := bytes.drop (if version = 5 then next + 4 else next)
      if s2kUsage ≠ 0 then
        .ok { base with
          symmetric := symmetric, aead := aead, s2k := s2k,
          isLegacyAEAD := isLegacyAEAD, usedModernAEAD := usedModernAEAD,
          iv := iv, keyMaterial := some keyMaterial, isEncrypted := some true }
      else
        let cleartext := if version = 6 then keyMaterial
          else keyMaterial.take (keyMaterial.length - 2)
        if version ≠ 6 ∧
            keyMaterial.drop (keyMaterial.length - 2) ≠ writeChecksum cleartext then
          .error "Key checksum mismatch"
        else
          match parsePrivateKeyParams expandMlkemSeed expandMldsaSeed algorithm
              cleartext pub with
          | .ok pr =>
              if pr.read < cleartext.length then .error "Error reading MPIs"
              else
                .ok { base with
                  keyMaterial := some keyMaterial,
                  isEncrypted := some false,
                  privateParams := some pr.privateParams }
          | .error e =>
              if isUnsupportedError e then .error e
              else .error "Error reading MPIs"

/-- `SecretKeyPacket.generate(bits, curve, symmetric)`: the v6/legacy-curve
and pre-v6/PQC rejections, then the generated record from `generateParams`
(an external primitive here, so the generated record is a parameter). The
source interpolates the curve and version into the error messages. -/
def secretKeyGenerate (p : SecretKeyPacket) (curve : Option Curve)
    (generatedPriv : PrivateParams) (generatedPub : PublicParams) :
    Except String SecretKeyPacket :=
  if p.version = 6 ∧
      ((p.algorithm = pkEcdh ∧ curve = some .curve25519Legacy) ∨
        p.algorithm = pkEddsaLegacy) then
    .error "Cannot generate v6 keys of type 'ecc' with this curve. Generate a key of type 'curve25519' instead"
  else if p.version ≠ 6 ∧ p.algorithm = pkPqcMldsaEd25519 then
    .error "Cannot generate signing keys of type 'pqc' for this version. Generate a v6 key instead"
  else
    .ok { p with
      privateParams := some generatedPriv,
      publicParams := generatedPub, isEncrypted := some false }

/-- `SecretKeyPacket.encrypt(passphrase)`: no-op on dummies, requires the
decrypted state and a nonempty passphrase, then AEAD (s2kUsage 253) or
CFB+SHA-1 (s2kUsage 254) protection of the serialized private parameters.
Thrown errors leave the state unchanged (the source's partial mutations
before a throw are not modelled). -/
def secretKeyEncrypt (C : SecretKeyCrypto) (p : SecretKeyPacket)
    (passphrase : String) : Except String SecretKeyPacket :=
  if p.isDummy then .ok p
  else if ¬(p.isEncrypted = some false) then
    .error "Key packet is already encrypted"
  else if passphrase = "" then
    .error "A non-empty passphrase is required for key encryption."
  else
    match p.privateParams with
    | none => .error "Cannot convert null to object"
    | some priv =>
      let s2k := C.freshS2K
      match serializeParams p.algorithm priv.fields with
      | .error e => .error e
      | .ok cleartext =>
        match getCipherParams symAes256 with
        | .error e => .error e
        | .ok cp =>
          if C.aeadProtect then
            let aead := C.preferredAEADAlgorithm
            match getAEADModeIvLength aead with
            | .error e => .error e
            | .ok ivLength =>
              let isLegacyAEAD : Bool := p.version = 5
              match produceEncryptionKey C.produceKey C.hkdf p.version s2k
                  passphrase symAes256 (some aead) C.serializedPacketTag
                  isLegacyAEAD with
              | .error e => .error e
              | .ok key =>
                let iv := if isLegacyAEAD then C.randomBytes cp.blockSize
                  else C.randomBytes ivLength
                let associateData := if isLegacyAEAD then []
                  else C.serializedPacketTag ++ C.publicKeyBytes
                .ok { p with
                  s2kUsage := 253, aead := some aead,
                  s2k := some s2k, symmetric := some symAes256,
                  isLegacyAEAD := some isLegacyAEAD,
                  usedModernAEAD := some (!isLegacyAEAD), iv := iv,
                  keyMaterial := some (C.aeadEncrypt aead symAes256 key
                    cleartext (iv.take ivLength) associateData) }
          else
            match produceEncryptionKey C.produceKey C.hkdf p.version s2k
                passphrase symAes256 none [] false with
            | .error e => .error e
            | .ok key =>
              let iv := C.randomBytes cp.blockSize
              .ok { p with
                s2kUsage := 254, s2k := some s2k,
                symmetric := some symAes256, usedModernAEAD := some false,
                iv := iv,
                keyMaterial := some (C.cfbEncrypt symAes256 key
                  (cleartext ++ C.sha1 cleartext) iv) }

/-- `SecretKeyPacket.decrypt(passphrase)`: no-op on dummies, refuses
unparseable or already-decrypted packets and the insecure s2kUsage values;
otherwise derives the key, opens the AEAD or CFB+SHA-1 envelope, parses
the private parameters and enters the decrypted state. -/
def secretKeyDecrypt (C : SecretKeyCrypto) (p : SecretKeyPacket)
    (passphrase : String) : Except String SecretKeyPacket :=
  if p.isDummy then .ok p
  else if p.unparseableKeyMaterial ≠ none then
    .error "Key packet cannot be decrypted: unsupported S2K or cipher algo"
  else if p.isEncrypted = some false then
    .error "Key packet is already decrypted."
  else
    match (if p.s2kUsage = 254 ∨ p.s2kUsage = 253 then
        match p.s2k with
        | none => .error "Unknown S2K type"
        | some s2k =>
            produceEncryptionKey C.produceKey C.hkdf p.version s2k passphrase
              (p.symmetric.getD 0) p.aead C.serializedPacketTag
              (p.isLegacyAEAD.getD false)
      else if p.s2kUsage = 255 then
        .error "Encrypted private key is authenticated using an insecure two-byte hash"
      else
        (.error "Private key is encrypted using an insecure S2K function: unsalted MD5" :
          Except String Bytes)) with
    | .error e => .error e
    | .ok key =>
      match (if p.s2kUsage = 253 then
          match getAEADModeIvLength (p.aead.getD 0) with
          | .error e => .error e
          | .ok ivLength =>
            let associateData := if p.isLegacyAEAD.getD false then []
              else C.serializedPacketTag ++ C.publicKeyBytes
            match C.aeadDecrypt (p.aead.getD 0) (p.symmetric.getD 0) key
                (p.keyMaterial.getD []) (p.iv.take ivLength) associateData with
            | .error e =>
                if e = "Authentication tag mismatch" then
                  .error ("Incorrect key passphrase: " ++ e)
                else .error e
            | .ok ct => .ok ct
        else
          let cleartextWithHash := C.cfbDecrypt (p.symmetric.getD 0) key
            (p.keyMaterial.getD []) p.iv
          let cleartext := cleartextWithHash.take (cleartextWithHash.length - 20)
          if C.sha1 cleartext ≠
              cleartextWithHash.drop (cleartextWithHash.length - 20) then
            .error "Incorrect key passphrase"
          else (.ok cleartext : Except String Bytes)) with
      | .error e => .error e
      | .ok cleartext =>
        match parsePrivateKeyParams C.expandMlkemSeed C.expandMldsaSeed
            p.algorithm cleartext p.publicParams with
        | .error _ => .error "Error reading MPIs"
        | .ok pr =>
            .ok { p with
              privateParams := some pr.privateParams,
              isEncrypted := some false, keyMaterial := none, s2kUsage := 0,
              aead := none, symmetric := none, isLegacyAEAD := none }

/-- `clearPrivateParams()`: no-op when the secret material is missing
(unparseable or dummy); otherwise zeroes and drops the private parameters
and marks the packet encrypted. On a packet with no private parameters and
no missing material the source's `Object.keys(null)` throws. -/
def clearPrivateParams (p : SecretKeyPacket) : Except String SecretKeyPacket :=
  if p.isMissingSecretKeyMaterial then .ok p
  else
    match p.privateParams with
    | none => .error "Cannot convert null to object"
    | some _ => .ok { p with privateParams := none, isEncrypted := some true }

/-- `makeDummy()`: no-op on dummies; clears the private parameters when
decrypted, removes any unparseable material, nulls `isEncrypted` and the
key material and installs a gnu-dummy S2K. -/
def makeDummy (p : SecretKeyPacket) : Except String SecretKeyPacket :=
  if p.isDummy then .ok p
  else
    match (if p.isEncrypted = some false then clearPrivateParams p else .ok p) with
    | .error e => .error e
    | .ok p1 =>
        .ok { p1 with
          unparseableKeyMaterial := none, isEncrypted := none,
          keyMaterial := none, s2k := some S2K.gnuDummy, s2kUsage := 254,
          symmetric := some symAes256, isLegacyAEAD := none,
          usedModernAEAD := none }

/-- The invariant as the claim words it: the packet is marked encrypted
exactly when no decrypted secret material is present (`isEncrypted` is
nullable; it "holds" when `true`). -/
def claimedSecretKeyInvariant (p : SecretKeyPacket) : Prop :=
  p.isEncrypted = some true ↔ p.privateParams = none

/-- The invariant the operations actually preserve: decrypted secret
material is present exactly when the packet is in the decrypted state
(`isEncrypted === false`) and carries no unparseable key material. -/
def secretKeyInvariant (p : SecretKeyPacket) : Prop :=
  (p.isEncrypted = some false ∧ p.unparseableKeyMaterial = none) ↔
    p.privateParams ≠ none

/-- A freshly generated decrypted packet, for concrete evaluation. -/
def sampleDecryptedPacket : SecretKeyPacket where
  version := 4
  algorithm := pkEd25519
  publicParams := .eddsa (List.replicate 32 1)
  keyMaterial := none
  isEncrypted := some false
  s2kUsage := 0
  s2k := none
  symmetric := none
  aead := none
  isLegacyAEAD := none
  privateParams := some (.eddsa (List.replicate 32 2))
  usedModernAEAD := none
  unparseableKeyMaterial := none
  iv := []

/-- A freshly constructed packet before `read`/`generate`, for concrete
evaluation. -/
def sampleFreshPacket : SecretKeyPacket where
  version := 6
  algorithm := pkEd25519
  publicParams := .eddsa (List.replicate 32 1)
  keyMaterial := none
  isEncrypted := none
  s2kUsage := 0
  s2k := none
  symmetric := none
  aead := none
  isLegacyAEAD := none
  privateParams := none
  usedModernAEAD := none
  unparseableKeyMaterial := none
  iv := []

/-- A concrete primitive instance for the Secret-Key packet operations. -/
def trivialSecretKeyCrypto : SecretKeyCrypto where
  produceKey := fun _ _ n => List.replicate n 0
  hkdf := fun _ _ _ _ n => List.replicate n 0
  randomBytes := fun n => List.replicate n 0
  aeadEncrypt := fun _ _ _ ct _ _ => ct
  aeadDecrypt := fun _ _ _ km _ _ => .ok km
  cfbEncrypt := fun _ _ ct _ => ct
  cfbDecrypt := fun _ _ km _ => km
  sha1 := fun _ => List.replicate 20 0
  expandMlkemSeed := fun b => b
  expandMldsaSeed := fun b => b
  freshS2K := S2K.iterated
  serializedPacketTag := [197]
  publicKeyBytes := []
  aeadProtect := false
  preferredAEADAlgorithm := aeadOcb
  parseAEADEncryptedV4KeysAsLegacy := false

/-! ## Theorems -/

/-- The bytewise two-octet comparison of the source's constant-time
checksum check agrees with equality of the two-byte strings. -/
theorem two_octet_check_iff (a b : Nat) (l : List Nat) (h : l.length ≤ 2) :
    (([a, b].get? 0 = l.get? 0) ∧ ([a, b].get? 1 = l.get? 1)) ↔ l = [a, b] := by
  match l with
  | [] => simp
  | [x] => simp
  | [x, y] =>
      constructor
      · rintro ⟨h0, h1⟩
        simp only [List.get?, Option.some.injEq] at h0 h1
        simp [h0, h1]
      · intro h
        rw [h]
        exact ⟨rfl, rfl⟩
  | x :: y :: z :: t => simp at h

/-- The source's boolean validity check (bytewise checksum comparison,
algorithm match, length match) agrees with the decided conjunction of the
corresponding propositions. -/
theorem checksum_bool_eq (x checksum : Bytes) (p q : Prop) [Decidable p] [Decidable q]
    (h : checksum.length ≤ 2) :
    ((decide ((writeChecksum x).get? 0 = checksum.get? 0) &&
      decide ((writeChecksum x).get? 1 = checksum.get? 1)) && decide p && decide q)
    = decide (checksum = writeChecksum x ∧ p ∧ q) := by
  have h2 : (((writeChecksum x).get? 0 = checksum.get? 0) ∧
      ((writeChecksum x).get? 1 = checksum.get? 1)) ↔ checksum = writeChecksum x := by
    simpa only [writeChecksum] using
      two_octet_check_iff ((x.foldl (· + ·) 0 % 65536) / 256)
        ((x.foldl (· + ·) 0 % 65536) % 256) checksum h
  rcases Decidable.em (checksum = writeChecksum x) with hc | hc
  · have hok := h2.mpr hc
    simp [hok.1, hok.2, hc, Bool.and_assoc]
  · have hnot := fun hcc => hc (h2.mp hcc)
    have hd0 : (decide ((writeChecksum x).get? 0 = checksum.get? 0) &&
        decide ((writeChecksum x).get? 1 = checksum.get? 1)) = false := by
      rcases not_and_or.mp hnot with h0 | h0
      · rw [decide_eq_false h0, Bool.false_and]
      · rw [decide_eq_false h0, Bool.and_false]
    rw [hd0]
    simp [hc]

/-- Reduction of the source's guarded success/throw pattern to the guard
proposition. -/
theorem ite_ok_error_iff {α : Type} (C : Prop) [Decidable C] (v : α) (M : String) :
    ((if decide C = true then Except.ok v else Except.error M) = Except.error M ↔ ¬C) := by
  by_cases hc : C <;> simp [hc]

/-- The bytewise checksum comparison as a decided list equality. -/
theorem checksum_bool_eq_decide (x checksum : Bytes) (h : checksum.length ≤ 2) :
    (decide ((writeChecksum x).get? 0 = checksum.get? 0) &&
      decide ((writeChecksum x).get? 1 = checksum.get? 1))
    = decide (checksum = writeChecksum x) := by
  have h2 : (((writeChecksum x).get? 0 = checksum.get? 0) ∧
      ((writeChecksum x).get? 1 = checksum.get? 1)) ↔ checksum = writeChecksum x := by
    simpa only [writeChecksum] using
      two_octet_check_iff ((x.foldl (· + ·) 0 % 65536) / 256)
        ((x.foldl (· + ·) 0 % 65536) % 256) checksum h
  rcases Decidable.em (checksum = writeChecksum x) with hc | hc
  · have hok := h2.mpr hc
    simp [hok.1, hok.2, hc]
  · have hnot := fun hcc => hc (h2.mp hcc)
    rcases not_and_or.mp hnot with h0 | h0
    · rw [decide_eq_false h0, Bool.false_and, decide_eq_false hc]
    · rw [decide_eq_false h0, Bool.and_false, decide_eq_false hc]

/-- The source's per-option symmetric-registry check as a decided
existential. -/
theorem opt_registered_bool (o : Option Nat) :
    (match o with
     | some a => decide (a ∈ registeredSymmetricAlgos)
     | none => false)
    = decide (∃ a, o = some a ∧ a ∈ registeredSymmetricAlgos) := by
  cases o with
  | none => simp
  | some a => by_cases h : a ∈ registeredSymmetricAlgos <;> simp [h]

/-- An algorithm with the checksummed session-key encoding is not one of
the cleartext-algorithm (Montgomery/composite) algorithms. -/
theorem checksummed_not_cleartext (keyAlgo : Nat) (h : keyAlgo ∈ checksummedAlgos) :
    keyAlgo ∉ algosWithV3CleartextSessionKeyAlgorithm := by
  simp only [checksummedAlgos, List.mem_cons, List.mem_singleton] at h
  rcases h with rfl | rfl | rfl | rfl | rfl | h <;> first | decide | simp at h

/-- **C1 (counterexample)**: the KEK computed by the dispatched encrypt
path (kem.js) is the digest of
`mlkemShare ‖ eccShare ‖ eccCt ‖ eccPub ‖ [algo] ‖ domSep ‖ [21]`, which
differs from the claimed
`counter(0,0,0,1) ‖ eccShare ‖ eccCt ‖ eccPub ‖ mlkemShare ‖ mlkemCt ‖
mlkemPub ‖ [algo] ‖ domSep` digest already on the digest input: with the
identity digest and the KEK-exposing wrap, concrete one-byte shares give
different byte strings (the claimed input carries the counter, the ML-KEM
ciphertext and the ML-KEM public key; the dispatched one does not). -/
theorem kemEncrypt_kek_differs_from_claimed_formula :
    (kemEncrypt kemIdPrims pkPqcMlkemX25519 [4] [6] []).2.2 =
      multiKeyCombine (fun _ m => m) pkPqcMlkemX25519 [1] [2] [3] [4] ∧
    (kemEncrypt kemIdPrims pkPqcMlkemX25519 [4] [6] []).2.2 ≠
      specCompositeKDF (fun _ m => m) pkPqcMlkemX25519 [2] [3] [4] [1] [5] [6] :=
  ⟨rfl, by decide⟩

/-- **C1 (amended)**: for the composite ML-KEM+X25519 algorithm, the KEM
key combiner invoked by the dispatched `encrypt` and `decrypt` paths
(postQuantum.kem, kem/kem.js) computes the KEK as the one-shot SHA3-256
digest of
`mlkemShare ‖ eccShare ‖ eccCipherText ‖ eccPublicKey ‖ [algo] ‖
"OpenPGPCompositeKDFv1" ‖ [21]` — ML-KEM share first, no leading counter,
without the ML-KEM ciphertext or public key, with the one-octet
domain-separator length 21 appended — for every combination of shares,
ciphertexts and public keys and every instantiation of the external
primitives. -/
theorem multiKeyCombine_dispatched_formula (P : KemPrims) (algo : Nat)
    (eccPublicKey mlkemPublicKey sessionKeyData eccCipherText mlkemCipherText
     eccSecretKey mlkemSecretKey encryptedSessionKeyData : Bytes) :
    (∀ digest a mks ks ct pub,
      multiKeyCombine digest a mks ks ct pub =
        digest hashSha3_256
          (mks ++ ks ++ ct ++ pub ++ [a] ++ encodeUTF8 "OpenPGPCompositeKDFv1"
            ++ [(encodeUTF8 "OpenPGPCompositeKDFv1").length])) ∧
    kemEncrypt P algo eccPublicKey mlkemPublicKey sessionKeyData =
      ((P.eccEncaps algo eccPublicKey).2, (P.mlkemEncaps algo mlkemPublicKey).2,
       P.aeskwWrap symAes256
         (multiKeyCombine P.computeDigest algo
           (P.mlkemEncaps algo mlkemPublicKey).1 (P.eccEncaps algo eccPublicKey).1
           (P.eccEncaps algo eccPublicKey).2 eccPublicKey)
         sessionKeyData) ∧
    kemDecrypt P algo eccCipherText mlkemCipherText eccSecretKey eccPublicKey
        mlkemSecretKey mlkemPublicKey encryptedSessionKeyData =
      P.aeskwUnwrap symAes256
        (multiKeyCombine P.computeDigest algo
          (P.mlkemDecaps algo mlkemCipherText mlkemSecretKey)
          (P.eccDecaps algo eccCipherText eccSecretKey eccPublicKey)
          eccCipherText eccPublicKey)
        encryptedSessionKeyData :=
  ⟨fun _ _ _ _ _ _ => rfl, rfl, rfl⟩

/-- **C2**: for every PKESK decryption under an RSA, ElGamal, ECDH or AEAD
key where a `randomSessionKey` fallback is supplied, `decodeSessionKey`
never throws: it returns the decrypted session key exactly when the 2-byte
checksum is valid and the decrypted key's cipher algorithm and length equal
those of the random session key, and on any mismatch it returns the random
session key bytes (and, for v3, the random cipher algorithm), selected via
the constant-time select helpers. -/
theorem decodeSessionKey_with_random_never_throws (version keyAlgo : Nat)
    (decryptedData : Bytes) (r : RandomSessionKeyFallback)
    (hAlgo : keyAlgo ∈ checksummedAlgos) :
    decodeSessionKey version keyAlgo decryptedData (some r) =
      .ok (c2ExpectedOutput version decryptedData r) := by
  have hlen : (decryptedData.drop (decryptedData.length - 2)).length ≤ 2 := by
    simp only [List.length_drop]
    omega
  simp only [decodeSessionKey, if_pos hAlgo, c2ExpectedOutput]
  rw [checksum_bool_eq _ _ _ _ hlen]
  by_cases hp : (decryptedData.drop (decryptedData.length - 2) =
      writeChecksum ((decryptedData.take (decryptedData.length - 2)).drop
        ((decryptedData.take (decryptedData.length - 2)).length % 8)) ∧
    (if version = 6 then (⟨none, decryptedData.take (decryptedData.length - 2)⟩ : DecodedSessionKey)
     else ⟨(decryptedData.take (decryptedData.length - 2)).head?,
           (decryptedData.take (decryptedData.length - 2)).tail⟩).sessionKeyAlgorithm
      = some r.sessionKeyAlgorithm ∧
    (if version = 6 then (⟨none, decryptedData.take (decryptedData.length - 2)⟩ : DecodedSessionKey)
     else ⟨(decryptedData.take (decryptedData.length - 2)).head?,
           (decryptedData.take (decryptedData.length - 2)).tail⟩).sessionKey.length
      = r.sessionKey.length)
  · rw [decide_eq_true hp, if_pos hp]
    simp only [selectUint8, selectUint8Array, if_pos rfl]
    obtain ⟨h1, h2, h3⟩ := hp
    congr 1
    by_cases hv : version = 6
    · simp [hv]
    · simp only [if_neg hv] at h2 ⊢
      simp [h2]
  · rw [decide_eq_false hp, if_neg hp]
    simp [selectUint8, selectUint8Array]

/-- **C3**: for every PKESK decryption under an RSA, ElGamal, ECDH or AEAD
key without a `randomSessionKey` fallback, `decodeSessionKey` throws a
single generic `'Decryption error'` if and only if the 2-byte checksum is
invalid or, for version 3, the decoded one-byte cipher algorithm is not a
registered symmetric algorithm; additionally, for version 3 the decrypted
session key's length must equal the key size of the decoded cipher
algorithm or the PKESK `decrypt` fails (with `'Unexpected session key
size'`). -/
theorem decodeSessionKey_without_random_error_conditions :
    (∀ version keyAlgo : Nat, ∀ decryptedData : Bytes,
      keyAlgo ∈ checksummedAlgos → (version = 3 ∨ version = 6) →
      (decodeSessionKey version keyAlgo decryptedData none = .error "Decryption error" ↔
        ¬(decryptedData.drop (decryptedData.length - 2) =
            writeChecksum ((decryptedData.take (decryptedData.length - 2)).drop
              ((decryptedData.take (decryptedData.length - 2)).length % 8)) ∧
          (version = 6 ∨ (∃ a, (decryptedData.take (decryptedData.length - 2)).head? = some a ∧
            a ∈ registeredSymmetricAlgos))))) ∧
    (∀ (pkDecrypt : Option Bytes → Except String Bytes) (packet : PKESKPacket)
        (keyAlgorithm : Nat) (data : Bytes) (dec : DecodedSessionKey) (a : Nat)
        (cp : CipherParams),
      packet.version = 3 →
      packet.publicKeyAlgorithm = keyAlgorithm →
      keyAlgorithm ∈ checksummedAlgos →
      pkDecrypt none = .ok data →
      decodeSessionKey 3 keyAlgorithm data none = .ok dec →
      dec.sessionKeyAlgorithm = some a →
      getCipherParams a = .ok cp →
      pkeskDecrypt pkDecrypt packet keyAlgorithm none =
        (if dec.sessionKey.length = cp.keySize then
          .ok { packet with sessionKeyAlgorithm := some a, sessionKey := some dec.sessionKey }
        else .error "Unexpected session key size")) := by
  constructor
  · intro version keyAlgo decryptedData hAlgo hVer
    have hlen : (decryptedData.drop (decryptedData.length - 2)).length ≤ 2 := by
      simp only [List.length_drop]
      omega
    simp only [decodeSessionKey, if_pos hAlgo]
    rw [checksum_bool_eq_decide _ _ hlen]
    rcases hVer with hv | hv
    · subst hv
      simp only [show ((3 : Nat) = 6) = False from by simp, if_false, decide_False,
        Bool.false_or, false_or]
      rw [opt_registered_bool, ← Bool.decide_and]
      exact ite_ok_error_iff _ _ _
    · subst hv
      simp only [show ((6 : Nat) = 6) = True from by simp, if_true, decide_True,
        Bool.true_or, Bool.and_true, true_or, and_true]
      exact ite_ok_error_iff _ _ _
  · intro pkDecrypt packet keyAlgorithm data dec a cp hv hpa hca hpd hdec halg hcp
    have hnc := checksummed_not_cleartext _ hca
    simp only [pkeskDecrypt, hpa, hv]
    rw [if_neg (fun hcon => hcon rfl)]
    simp only [hpd, hdec, eq_self_iff_true, if_true]
    rw [if_pos hnc, halg]
    simp only [hcp]
    by_cases hl : dec.sessionKey.length = cp.keySize
    · simp [hl]
    · simp [hl]

/-- **C9**: `PublicKeyEncryptedSessionKeyPacket.decrypt` throws a
`'Decryption error'` whenever the packet's `publicKeyAlgorithm` differs
from the decryption key's algorithm, before performing any public-key
decryption (the result does not depend on the abstract `pkDecrypt`
parameter), and it does so even when a `randomSessionKey` fallback is
supplied. -/
theorem pkeskDecrypt_algo_mismatch_throws
    (pkDecrypt : Option Bytes → Except String Bytes) (packet : PKESKPacket)
    (keyAlgorithm : Nat) (randomSessionKey : Option RandomSessionKeyFallback)
    (h : packet.publicKeyAlgorithm ≠ keyAlgorithm) :
    pkeskDecrypt pkDecrypt packet keyAlgorithm randomSessionKey =
      .error "Decryption error" := by
  simp only [pkeskDecrypt]
  rw [if_pos h]

/-- Reading a byte right after a prefix of known length. -/
theorem byteAt_of_append (l1 l2 : Bytes) (n : Nat) (h : l1.length = n) :
    byteAt (l1 ++ l2) n = l2.headD 0 := by
  subst h
  simp only [byteAt, List.get?_append_right (le_refl _), Nat.sub_self]
  cases l2 <;> rfl

/-- Reading the byte following a three-octet header and a block of known
length. -/
theorem byteAt_cons3_append (a b c : Nat) (l1 l2 : Bytes) :
    byteAt (a :: b :: c :: (l1 ++ l2)) (3 + l1.length) = l2.headD 0 := by
  have he : a :: b :: c :: (l1 ++ l2) = ([a, b, c] ++ l1) ++ l2 := by simp
  rw [he]
  exact byteAt_of_append _ _ _ (by simp; omega)

/-- Dropping a known-length prefix plus one byte. -/
theorem drop_append_succ (l1 l2 : Bytes) (n : Nat) (h : l1.length = n) :
    (l1 ++ l2).drop (n + 1) = l2.drop 1 := by
  rw [List.drop_append_eq_append_drop, List.drop_eq_nil_of_le (by omega), h,
    Nat.add_sub_cancel_left, List.nil_append]

/-- **C7**: for every version 6 PKESK packet whose public-key algorithm is
X25519, X448 or ML-KEM+X25519 (whether addressed to a named or an anonymous
recipient), parsing fails whenever the wrapped-key structure's one-byte
cleartext symmetric algorithm field is non-null (and succeeds with no
session-key algorithm when the field is null); for version 3 packets of
those algorithms, parsing instead sets the packet's `sessionKeyAlgorithm`
from that cleartext byte. -/
theorem pkeskRead_cleartext_symmetric_algo (keyAlgo kv : Nat)
    (fp keyID encBytes : Bytes) (enc : EncSessionKeyParams)
    (hAlgo : keyAlgo ∈ algosWithV3CleartextSessionKeyAlgorithm)
    (hParse : parseEncSessionKeyParams keyAlgo encBytes = .ok enc)
    (hID : keyID.length = 8) :
    (enc.cAlgorithm ≠ none →
      pkeskRead (6 :: (fp.length + 1) :: kv :: (fp ++ keyAlgo :: encBytes)) =
        .error "Unexpected cleartext symmetric algorithm" ∧
      pkeskRead (6 :: 0 :: keyAlgo :: encBytes) =
        .error "Unexpected cleartext symmetric algorithm") ∧
    (enc.cAlgorithm = none →
      ∃ p, pkeskRead (6 :: 0 :: keyAlgo :: encBytes) = .ok p ∧
        p.sessionKeyAlgorithm = none ∧ p.version = 6 ∧
        p.publicKeyAlgorithm = keyAlgo ∧ p.encrypted = enc) ∧
    (∀ a, enc.cAlgorithm = some a → a ∈ registeredSymmetricAlgos →
      ∃ p, pkeskRead (3 :: (keyID ++ keyAlgo :: encBytes)) = .ok p ∧
        p.version = 3 ∧ p.publicKeyAlgorithm = keyAlgo ∧ p.encrypted = enc ∧
        p.sessionKeyAlgorithm = some a) := by
  have hb6 : byteAt (6 :: (fp.length + 1) :: kv :: (fp ++ keyAlgo :: encBytes))
      (3 + fp.length) = keyAlgo :=
    byteAt_cons3_append _ _ _ _ _
  have hd6 : (6 :: (fp.length + 1) :: kv :: (fp ++ keyAlgo :: encBytes)).drop
      ((3 + fp.length) + 1) = encBytes := by
    have he : 6 :: (fp.length + 1) :: kv :: (fp ++ keyAlgo :: encBytes) =
        ([6, fp.length + 1, kv] ++ fp) ++ (keyAlgo :: encBytes) := by simp
    rw [he, drop_append_succ _ _ _ (by simp; omega)]
    rfl
  have hb3 : byteAt (3 :: (keyID ++ keyAlgo :: encBytes)) 9 = keyAlgo := by
    have he : 3 :: (keyID ++ keyAlgo :: encBytes) = (3 :: keyID) ++ (keyAlgo :: encBytes) := by
      simp
    rw [he]
    exact byteAt_of_append _ _ _ (by simp [hID])
  have hd3 : (3 :: (keyID ++ keyAlgo :: encBytes)).drop (9 + 1) = encBytes := by
    have he : 3 :: (keyID ++ keyAlgo :: encBytes) = (3 :: keyID) ++ (keyAlgo :: encBytes) := by
      simp
    rw [he, drop_append_succ _ _ _ (by simp [hID])]
    rfl
  refine ⟨fun hCA => ⟨?_, ?_⟩, fun hCA => ?_, fun a hCA hreg => ?_⟩
  · simp only [pkeskRead,
      show byteAt (6 :: (fp.length + 1) :: kv :: (fp ++ keyAlgo :: encBytes)) 0 = 6 from rfl,
      show byteAt (6 :: (fp.length + 1) :: kv :: (fp ++ keyAlgo :: encBytes)) 1 = fp.length + 1
        from rfl,
      show byteAt (6 :: (fp.length + 1) :: kv :: (fp ++ keyAlgo :: encBytes)) 2 = kv from rfl,
      show (fp.length + 1 ≠ 0) = True from by simp,
      Nat.add_sub_cancel, hb6, hd6, hParse, ite_true, ite_false,
      show (((6 : Nat) ≠ 3) ∧ ((6 : Nat) ≠ 6)) = False from by simp,
      show ((6 : Nat) = 3) = False from by simp,
      show ((6 : Nat) = 6) = True from by simp,
      show (keyAlgo ∈ algosWithV3CleartextSessionKeyAlgorithm) = True from by simp [hAlgo],
      show (enc.cAlgorithm ≠ none) = True from by simp [hCA]]
  · simp only [pkeskRead,
      show byteAt (6 :: 0 :: keyAlgo :: encBytes) 0 = 6 from rfl,
      show byteAt (6 :: 0 :: keyAlgo :: encBytes) 1 = 0 from rfl,
      show byteAt (6 :: 0 :: keyAlgo :: encBytes) 2 = keyAlgo from rfl,
      show (6 :: 0 :: keyAlgo :: encBytes).drop (2 + 1) = encBytes from rfl,
      hParse, ite_true, ite_false,
      show (((6 : Nat) ≠ 3) ∧ ((6 : Nat) ≠ 6)) = False from by simp,
      show ((6 : Nat) = 3) = False from by simp,
      show ((6 : Nat) = 6) = True from by simp,
      show ((0 : Nat) ≠ 0) = False from by simp,
      show (keyAlgo ∈ algosWithV3CleartextSessionKeyAlgorithm) = True from by simp [hAlgo],
      show (enc.cAlgorithm ≠ none) = True from by simp [hCA]]
  · refine ⟨⟨6, keyIDWildcard, none, none, keyAlgo, none, none, enc⟩, ?_, rfl, rfl, rfl, rfl⟩
    simp only [pkeskRead,
      show byteAt (6 :: 0 :: keyAlgo :: encBytes) 0 = 6 from rfl,
      show byteAt (6 :: 0 :: keyAlgo :: encBytes) 1 = 0 from rfl,
      show byteAt (6 :: 0 :: keyAlgo :: encBytes) 2 = keyAlgo from rfl,
      show (6 :: 0 :: keyAlgo :: encBytes).drop (2 + 1) = encBytes from rfl,
      hParse, ite_true, ite_false, hCA,
      show ((none : Option Nat) ≠ none) = False from by simp,
      show (((6 : Nat) ≠ 3) ∧ ((6 : Nat) ≠ 6)) = False from by simp,
      show ((6 : Nat) = 3) = False from by simp,
      show ((6 : Nat) = 6) = True from by simp,
      show ((0 : Nat) ≠ 0) = False from by simp,
      show (keyAlgo ∈ algosWithV3CleartextSessionKeyAlgorithm) = True from by simp [hAlgo]]
  · refine ⟨⟨3, keyID, none, none, keyAlgo, none, some a, enc⟩, ?_, rfl, rfl, rfl, rfl⟩
    simp only [pkeskRead,
      show byteAt (3 :: (keyID ++ keyAlgo :: encBytes)) 0 = 3 from rfl,
      hb3, hd3, hParse, ite_true, ite_false, hCA,
      show (((3 : Nat) ≠ 3) ∧ ((3 : Nat) ≠ 6)) = False from by simp,
      show ((3 : Nat) = 6) = False from by simp,
      show ((3 : Nat) = 3) = True from by simp,
      show ((3 :: (keyID ++ keyAlgo :: encBytes)).drop 1).take 8 = keyID from by
        simpa using List.take_left' hID,
      show (keyAlgo ∈ algosWithV3CleartextSessionKeyAlgorithm) = True from by simp [hAlgo],
      show (a ∈ registeredSymmetricAlgos) = True from by simp [hreg]]

/-- Witness for C2 at a concrete input: an ECDH-key decryption with a valid
checksum but a session-key-algorithm mismatch returns the random session
key. -/
theorem decodeSessionKey_with_random_never_throws_witness :
    pkEcdh ∈ checksummedAlgos ∧
    decodeSessionKey 3 pkEcdh [0, 0] (some ⟨[9, 9], symAes128⟩) =
      .ok (c2ExpectedOutput 3 [0, 0] ⟨[9, 9], symAes128⟩) :=
  ⟨by decide,
   decodeSessionKey_with_random_never_throws 3 pkEcdh [0, 0] ⟨[9, 9], symAes128⟩ (by decide)⟩

/-- Witness for C3 at concrete inputs: an empty v3 RSA-class payload with
a valid checksum but no algorithm octet raises the generic error, and a
16-byte AES-128 session key passes the v3 length check. -/
theorem decodeSessionKey_without_random_error_conditions_witness :
    (decodeSessionKey 3 pkEcdh [0, 0] none = .error "Decryption error" ↔
      ¬(([0, 0] : Bytes).drop (([0, 0] : Bytes).length - 2) =
          writeChecksum ((([0, 0] : Bytes).take (([0, 0] : Bytes).length - 2)).drop
            ((([0, 0] : Bytes).take (([0, 0] : Bytes).length - 2)).length % 8)) ∧
        ((3 : Nat) = 6 ∨ (∃ a, (([0, 0] : Bytes).take (([0, 0] : Bytes).length - 2)).head? =
          some a ∧ a ∈ registeredSymmetricAlgos)))) ∧
    pkeskDecrypt (fun _ => .ok (7 :: (List.replicate 16 1 ++ [0, 16])))
        ⟨3, keyIDWildcard, none, none, pkEcdh, none, none, .rsa []⟩ pkEcdh none =
      (if (List.replicate 16 1 : Bytes).length = (⟨16, 16⟩ : CipherParams).keySize then
        .ok { (⟨3, keyIDWildcard, none, none, pkEcdh, none, none, .rsa []⟩ : PKESKPacket) with
                sessionKeyAlgorithm := some 7, sessionKey := some (List.replicate 16 1) }
      else .error "Unexpected session key size") :=
  ⟨decodeSessionKey_without_random_error_conditions.1 3 pkEcdh [0, 0] (by decide) (Or.inl rfl),
   decodeSessionKey_without_random_error_conditions.2
     (fun _ => .ok (7 :: (List.replicate 16 1 ++ [0, 16])))
     ⟨3, keyIDWildcard, none, none, pkEcdh, none, none, .rsa []⟩ pkEcdh
     (7 :: (List.replicate 16 1 ++ [0, 16])) ⟨some 7, List.replicate 16 1⟩ 7 ⟨16, 16⟩
     rfl rfl (by decide) rfl rfl rfl rfl⟩

/-- Witness for C7 at concrete inputs: a v6 anonymous-recipient X25519
PKESK whose wrapped-key structure carries a cleartext AES-128 octet fails
to parse, while the corresponding v3 packet parses with
`sessionKeyAlgorithm` set from that octet. -/
theorem pkeskRead_cleartext_symmetric_algo_witness :
    pkeskRead (6 :: 0 :: pkX25519 ::
        (List.replicate 32 2 ++ 17 :: 7 :: List.replicate 16 3)) =
      .error "Unexpected cleartext symmetric algorithm" ∧
    (∃ p, pkeskRead (3 :: (List.replicate 8 5 ++ pkX25519 ::
        (List.replicate 32 2 ++ 17 :: 7 :: List.replicate 16 3))) = .ok p ∧
      p.version = 3 ∧ p.publicKeyAlgorithm = pkX25519 ∧
      p.encrypted = .ecdhX (List.replicate 32 2) (some 7) (List.replicate 16 3) ∧
      p.sessionKeyAlgorithm = some 7) :=
  ⟨((pkeskRead_cleartext_symmetric_algo pkX25519 0 [] (List.replicate 8 5)
      (List.replicate 32 2 ++ 17 :: 7 :: List.replicate 16 3)
      (.ecdhX (List.replicate 32 2) (some 7) (List.replicate 16 3))
      (by decide) (by rfl) (by simp)).1 (by decide)).2,
   (pkeskRead_cleartext_symmetric_algo pkX25519 0 [] (List.replicate 8 5)
      (List.replicate 32 2 ++ 17 :: 7 :: List.replicate 16 3)
      (.ecdhX (List.replicate 32 2) (some 7) (List.replicate 16 3))
      (by decide) (by rfl) (by simp)).2.2 7 rfl (by decide)⟩

/-- Witness for C9 at a concrete input: an RSA packet decrypted with an
X25519 key fails with the generic decryption error. -/
theorem pkeskDecrypt_algo_mismatch_throws_witness :
    pkRsaEncryptSign ≠ pkX25519 ∧
    pkeskDecrypt (fun _ => .ok []) ⟨3, keyIDWildcard, none, none, pkRsaEncryptSign, none, none, .rsa []⟩
        pkX25519 none = .error "Decryption error" :=
  ⟨by decide,
   pkeskDecrypt_algo_mismatch_throws (fun _ => .ok [])
     ⟨3, keyIDWildcard, none, none, pkRsaEncryptSign, none, none, .rsa []⟩
     pkX25519 none (by decide)⟩

/-! ### MPI codec lemmas -/

theorem except_bind_ok {α β : Type} (a : α) (f : α → Except String β) :
    (Except.ok a >>= f : Except String β) = f a := rfl

theorem except_bind_error {α β : Type} (e : String) (f : α → Except String β) :
    ((Except.error e : Except String α) >>= f : Except String β) = .error e := rfl

/-- Stripping is the identity on minimally-encoded (canonical) operands. -/
theorem stripLeadingZeros_eq_self (b : Bytes) (hne : b ≠ []) (hh : b.headD 0 ≠ 0) :
    stripLeadingZeros b = b := by
  cases b with
  | nil => exact absurd rfl hne
  | cons h t =>
      have : h ≠ 0 := by simpa using hh
      simp [stripLeadingZeros, this]

/-- Stripped bytes come from the input. -/
theorem stripLeadingZeros_subset (b : Bytes) : ∀ x ∈ stripLeadingZeros b, x ∈ b := by
  induction b with
  | nil => simp [stripLeadingZeros]
  | cons h t ih =>
      intro x hx
      by_cases h0 : h = 0
      · simp only [stripLeadingZeros, if_pos h0] at hx
        exact List.mem_cons_of_mem _ (ih x hx)
      · simpa [stripLeadingZeros, h0] using hx

/-- The stripped head is nonzero. -/
theorem stripLeadingZeros_headD (b : Bytes) (h : stripLeadingZeros b ≠ []) :
    (stripLeadingZeros b).headD 0 ≠ 0 := by
  induction b with
  | nil => simp [stripLeadingZeros] at h
  | cons hd t ih =>
      by_cases h0 : hd = 0
      · simp only [stripLeadingZeros, if_pos h0] at h ⊢
        exact ih h
      · simpa [stripLeadingZeros, h0] using h0

/-- Stripping does not lengthen. -/
theorem stripLeadingZeros_length_le (b : Bytes) :
    (stripLeadingZeros b).length ≤ b.length := by
  induction b with
  | nil => simp [stripLeadingZeros]
  | cons hd t ih =>
      by_cases h0 : hd = 0
      · simp only [stripLeadingZeros, if_pos h0, List.length_cons]
        omega
      · simp [stripLeadingZeros, h0]

/-- A byte string is its stripped form preceded by zeros. -/
theorem stripLeadingZeros_decomposition (b : Bytes) :
    List.replicate (b.length - (stripLeadingZeros b).length) 0 ++ stripLeadingZeros b = b := by
  induction b with
  | nil => simp [stripLeadingZeros]
  | cons hd t ih =>
      by_cases h0 : hd = 0
      · subst h0
        simp only [stripLeadingZeros, ite_true, List.length_cons]
        have hle := stripLeadingZeros_length_le t
        rw [show t.length + 1 - (stripLeadingZeros t).length
            = (t.length - (stripLeadingZeros t).length) + 1 from by omega]
        rw [List.replicate_succ, List.cons_append, ih]
      · simp [stripLeadingZeros, h0]

/-- Encoding and decoding of an MPI operand: the encoder emits the bit
length followed by the stripped bytes, and the decoder reads them back in
front of any remaining bytes. -/
theorem mpi_field (b : Bytes) (h0 : stripLeadingZeros b ≠ [])
    (h1 : b.length ≤ 8191) (h2 : ∀ x ∈ b, x < 256) :
    uint8ArrayToMPI b = .ok (mpiEnc b) ∧
    (mpiEnc b).length = (stripLeadingZeros b).length + 2 ∧
    ∀ rest, readMPI (mpiEnc b ++ rest) = .ok (stripLeadingZeros b) := by
  obtain ⟨h, t, hs⟩ : ∃ h t, stripLeadingZeros b = h :: t := by
    cases hcase : stripLeadingZeros b with
    | nil => exact absurd hcase h0
    | cons h t => exact ⟨h, t, rfl⟩
  have hh0 : h ≠ 0 := by
    have := stripLeadingZeros_headD b h0
    rw [hs] at this
    simpa using this
  have hh256 : h < 256 := h2 h (stripLeadingZeros_subset b h (by rw [hs]; simp))
  have hlen : t.length + 1 ≤ b.length := by
    have := stripLeadingZeros_length_le b
    rw [hs] at this
    simpa using this
  have hk8 : Nat.log2 h + 1 ≤ 8 := by
    have : Nat.log2 h < 8 := (Nat.log2_lt hh0).mpr (by omega)
    omega
  have hbits : byteArrayBitLength b = t.length * 8 + (Nat.log2 h + 1) := by
    rw [byteArrayBitLength, hs]
  refine ⟨?_, ?_, ?_⟩
  · simp only [uint8ArrayToMPI, hs, mpiEnc]
  · simp [mpiEnc, hs]
  · intro rest
    simp only [mpiEnc, hs, List.cons_append, List.nil_append, readMPI]
    have hrecomp : byteArrayBitLength b / 256 * 256 + byteArrayBitLength b % 256
        = byteArrayBitLength b := by omega
    rw [hrecomp]
    have hbyteLen : (byteArrayBitLength b + 7) / 8 = t.length + 1 := by
      rw [hbits]
      omega
    rw [hbyteLen]
    rw [if_pos (by simp)]
    rw [List.take_succ_cons]
    rw [show (t ++ rest).take t.length = t from List.take_left t rest]

/-- `readExactSubarray` at the front of a known-length block. -/
theorem readExact_prefix (l1 l2 : Bytes) (n : Nat) (h : l1.length = n) :
    readExactSubarray (l1 ++ l2) 0 n = .ok l1 := by
  unfold readExactSubarray
  rw [if_neg (by simp; omega)]
  simp [List.take_left' h]

/-- `readExactSubarray` of a known-length block after a known-length one. -/
theorem readExact_middle (pre l1 l2 : Bytes) (s n : Nat) (hs : pre.length = s)
    (h : l1.length = n) :
    readExactSubarray (pre ++ (l1 ++ l2)) s (s + n) = .ok l1 := by
  unfold readExactSubarray
  rw [if_neg (by simp; omega)]
  rw [List.drop_left' hs]
  rw [show s + n - s = n from by omega]
  rw [List.take_left' h]

/-- `readExactSubarray` of the trailing known-length block. -/
theorem readExact_last (pre l1 : Bytes) (s n : Nat) (hs : pre.length = s)
    (h : l1.length = n) :
    readExactSubarray (pre ++ l1) s (s + n) = .ok l1 := by
  have := readExact_middle pre l1 [] s n hs h
  simpa using this

/-- OID lookup over the supported-curve table is exact. -/
theorem curve_oid_lookup (c : Curve) :
    allCurves.find? (fun c' => decide (c'.oidBytes = c.oidBytes)) = some c := by
  cases c <;> rfl

/-- Curve OID bodies are nonempty. -/
theorem curve_oid_ne_nil (c : Curve) : c.oidBytes.length ≠ 0 := by
  cases c <;> decide

/-- Reading back a written curve OID. -/
theorem oidRead_write (c : Curve) (rest : Bytes) :
    oidRead (oidWrite c ++ rest) = .ok (c, c.oidBytes.length + 1) := by
  unfold oidRead oidWrite
  simp only [List.cons_append]
  rw [if_neg (by
    simp only [not_or]
    exact ⟨curve_oid_ne_nil c, by simp⟩)]
  simp only [List.take_left]
  rw [curve_oid_lookup]

/-- Dropping a known-length prefix plus extra. -/
theorem drop_append_add (l1 l2 : Bytes) (n m : Nat) (h : l1.length = n) :
    (l1 ++ l2).drop (n + m) = l2.drop m := by
  rw [List.drop_append_eq_append_drop, List.drop_eq_nil_of_le (by omega), h,
    Nat.add_sub_cancel_left, List.nil_append]

/-- **C4**: for every supported algorithm and every parameter record
produced by `generateParams`, parsing the serialization round-trips:
`parsePrivateKeyParams(algo, serializeParams(algo, priv), pub)` recovers
`priv` except for the excluded expanded-secret fields, which are re-derived
from the seed on parse, and the PQC composite serializations contain only
the seed while the expanded secret key is omitted; the analogous round-trip
holds for public parameters. -/
theorem generateParams_serialization_roundtrip
    (expandMlkemSeed expandMldsaSeed : Bytes → Bytes) :
    (∀ algo priv pub, wfPrivateFor algo priv pub →
      ∃ bs, serializeParams algo priv.fields = .ok bs ∧
        parsePrivateKeyParams expandMlkemSeed expandMldsaSeed algo bs pub =
          .ok ⟨bs.length, reparsedPrivate expandMlkemSeed expandMldsaSeed priv⟩) ∧
    (∀ algo pub, wfPublicFor algo pub →
      ∃ bs, serializeParams algo pub.fields = .ok bs ∧
        parsePublicKeyParams algo bs = .ok ⟨bs.length, pub⟩) ∧
    (∀ ecc seed sk,
      serializeParams pkPqcMlkemX25519 (PrivateParams.mlkem ecc seed sk).fields =
        .ok (ecc ++ seed)) ∧
    (∀ ecc seed sk,
      serializeParams pkPqcMldsaEd25519 (PrivateParams.mldsa ecc seed sk).fields =
        .ok (ecc ++ seed)) := by
  refine ⟨?_, ?_, ?_, ?_⟩
  · intro algo priv pub hwf
    cases priv with
    | rsa d p q u =>
        obtain ⟨halgo, hd, hp, hq, hu⟩ := hwf
        have hna : algo ∉ algosWithNativeRepresentation := by
          rcases halgo with rfl | rfl | rfl <;> decide
        have hex : excludedFields algo = [] := by
          rcases halgo with rfl | rfl | rfl <;> rfl
        have hds := stripLeadingZeros_eq_self d hd.1 hd.2.1
        have hps := stripLeadingZeros_eq_self p hp.1 hp.2.1
        have hqs := stripLeadingZeros_eq_self q hq.1 hq.2.1
        have hus := stripLeadingZeros_eq_self u hu.1 hu.2.1
        obtain ⟨hde, hdl, hdr⟩ := mpi_field d (by rw [hds]; exact hd.1) hd.2.2.1 hd.2.2.2
        obtain ⟨hpe, hpl, hpr⟩ := mpi_field p (by rw [hps]; exact hp.1) hp.2.2.1 hp.2.2.2
        obtain ⟨hqe, hql, hqr⟩ := mpi_field q (by rw [hqs]; exact hq.1) hq.2.2.1 hq.2.2.2
        obtain ⟨hue, hul, hur⟩ := mpi_field u (by rw [hus]; exact hu.1) hu.2.2.1 hu.2.2.2
        rw [hds] at hdr hdl
        rw [hps] at hpr hpl
        rw [hqs] at hqr hql
        rw [hus] at hur hul
        have hD1 : (mpiEnc d ++ (mpiEnc p ++ (mpiEnc q ++ (mpiEnc u ++ [])))).drop
            (d.length + 2) = mpiEnc p ++ (mpiEnc q ++ (mpiEnc u ++ [])) :=
          List.drop_left' hdl
        have hD2 : (mpiEnc d ++ (mpiEnc p ++ (mpiEnc q ++ (mpiEnc u ++ [])))).drop
            (d.length + 2 + (p.length + 2)) = mpiEnc q ++ (mpiEnc u ++ []) := by
          rw [drop_append_add _ _ _ _ hdl, List.drop_left' hpl]
        have hD3 : (mpiEnc d ++ (mpiEnc p ++ (mpiEnc q ++ (mpiEnc u ++ [])))).drop
            (d.length + 2 + (p.length + 2) + (q.length + 2)) = mpiEnc u ++ [] := by
          rw [show d.length + 2 + (p.length + 2) + (q.length + 2)
              = d.length + 2 + ((p.length + 2) + (q.length + 2)) from by omega]
          rw [drop_append_add _ _ _ _ hdl, drop_append_add _ _ _ _ hpl,
            List.drop_left' hql]
        refine ⟨mpiEnc d ++ (mpiEnc p ++ (mpiEnc q ++ (mpiEnc u ++ []))), ?_, ?_⟩
        · simp [PrivateParams.fields, serializeParams, serializeParam, hna, hex,
            hde, hpe, hqe, hue, except_bind_ok]
        · rw [parsePrivateKeyParams.eq_def]
          rw [if_pos halgo]
          simp only [except_bind_ok, hdr, hD1, hpr, hD2, hqr, hD3, hur,
            reparsedPrivate]
          refine congrArg Except.ok ?_
          refine congrArg₂ ParsedPrivate.mk ?_ rfl
          simp only [List.length_append, List.length_nil, hdl, hpl, hql, hul]
          omega
    | dsaElgamal x =>
        obtain ⟨halgo, hx⟩ := hwf
        have hna : algo ∉ algosWithNativeRepresentation := by
          rcases halgo with rfl | rfl <;> decide
        have hex : excludedFields algo = [] := by
          rcases halgo with rfl | rfl <;> rfl
        have hxs := stripLeadingZeros_eq_self x hx.1 hx.2.1
        obtain ⟨hxe, hxl, hxr⟩ := mpi_field x (by rw [hxs]; exact hx.1) hx.2.2.1 hx.2.2.2
        rw [hxs] at hxr hxl
        refine ⟨mpiEnc x ++ [], ?_, ?_⟩
        · simp [PrivateParams.fields, serializeParams, serializeParam, hna, hex,
            hxe, except_bind_ok]
        · rw [parsePrivateKeyParams.eq_def]
          rw [if_neg (by rcases halgo with rfl | rfl <;> decide), if_pos halgo]
          simp only [except_bind_ok, hxr, reparsedPrivate]
          refine congrArg Except.ok ?_
          refine congrArg₂ ParsedPrivate.mk ?_ rfl
          simp only [List.length_append, List.length_nil, hxl]
    | ecdsaEcdh d =>
        obtain ⟨halgo, oid, hoid, hwfd⟩ := hwf
        obtain ⟨hstrip, hsize, hbound, hbytes⟩ := hwfd
        have hna : algo ∉ algosWithNativeRepresentation := by
          rcases halgo with rfl | rfl <;> decide
        have hex : excludedFields algo = [] := by
          rcases halgo with rfl | rfl <;> rfl
        obtain ⟨hde, hdl, hdr⟩ := mpi_field d hstrip (by omega) hbytes
        refine ⟨mpiEnc d ++ [], ?_, ?_⟩
        · simp [PrivateParams.fields, serializeParams, serializeParam, hna, hex,
            hde, except_bind_ok]
        · rw [parsePrivateKeyParams.eq_def]
          rw [if_neg (by rcases halgo with rfl | rfl <;> decide),
              if_neg (by rcases halgo with rfl | rfl <;> decide), if_pos halgo]
          rw [hoid]
          simp only [except_bind_ok, hdr]
          rw [leftPad, if_neg (by
            have h1 := stripLeadingZeros_length_le d
            omega)]
          simp only [except_bind_ok, reparsedPrivate]
          refine congrArg Except.ok ?_
          refine congrArg₂ ParsedPrivate.mk ?_ ?_
          · simp only [List.length_append, List.length_nil, hdl]
          · refine congrArg PrivateParams.ecdsaEcdh ?_
            rw [show oid.payloadSize - (stripLeadingZeros d).length
                = d.length - (stripLeadingZeros d).length from by omega]
            exact stripLeadingZeros_decomposition d
    | eddsaLegacy seed =>
        obtain ⟨halgo, hoid, hwfs⟩ := hwf
        subst halgo
        obtain ⟨hstrip, hsize, hbound, hbytes⟩ := hwfs
        obtain ⟨hse, hsl, hsr⟩ := mpi_field seed hstrip (by omega) hbytes
        have hna : pkEddsaLegacy ∉ algosWithNativeRepresentation := by decide
        have hex : excludedFields pkEddsaLegacy = [] := rfl
        refine ⟨mpiEnc seed ++ [], ?_, ?_⟩
        · simp [PrivateParams.fields, serializeParams, serializeParam, hna, hex,
            hse, except_bind_ok]
        · rw [parsePrivateKeyParams.eq_def]
          rw [if_neg (by decide), if_neg (by decide), if_neg (by decide),
              if_pos rfl]
          rw [hoid]
          simp only [except_bind_ok]
          rw [if_neg (by decide)]
          simp only [except_bind_ok, hsr]
          rw [leftPad, if_neg (by
            have h1 := stripLeadingZeros_length_le seed
            simp only [Curve.payloadSize]
            omega)]
          simp only [except_bind_ok, reparsedPrivate]
          refine congrArg Except.ok ?_
          refine congrArg₂ ParsedPrivate.mk ?_ ?_
          · simp only [List.length_append, List.length_nil, hsl]
          · refine congrArg PrivateParams.eddsaLegacy ?_
            rw [show Curve.ed25519Legacy.payloadSize - (stripLeadingZeros seed).length
                = seed.length - (stripLeadingZeros seed).length from by
              simp only [Curve.payloadSize]; omega]
            exact stripLeadingZeros_decomposition seed
    | eddsa seed =>
        rcases hwf with ⟨halgo, hlen⟩ | ⟨halgo, hlen⟩
        · subst halgo
          refine ⟨seed ++ [], ?_, ?_⟩
          · exact rfl
          · rw [parsePrivateKeyParams.eq_def]
            rw [if_neg (by decide), if_neg (by decide), if_neg (by decide),
                if_neg (by decide), if_pos (Or.inl rfl)]
            rw [show getCurvePayloadSize pkEd25519 = .ok 32 from rfl]
            simp only [except_bind_ok]
            have hre : readExactSubarray (seed ++ []) 0 32 = .ok seed := by
              rw [show (32 : Nat) = seed.length from hlen.symm]
              exact readExact_prefix seed [] seed.length rfl
            rw [hre]
            simp only [except_bind_ok, reparsedPrivate]
            refine congrArg Except.ok ?_
            refine congrArg₂ ParsedPrivate.mk ?_ rfl
            simp
        · subst halgo
          refine ⟨seed ++ [], ?_, ?_⟩
          · exact rfl
          · rw [parsePrivateKeyParams.eq_def]
            rw [if_neg (by decide), if_neg (by decide), if_neg (by decide),
                if_neg (by decide), if_pos (Or.inr rfl)]
            rw [show getCurvePayloadSize pkEd448 = .ok 57 from rfl]
            simp only [except_bind_ok]
            have hre : readExactSubarray (seed ++ []) 0 57 = .ok seed := by
              rw [show (57 : Nat) = seed.length from hlen.symm]
              exact readExact_prefix seed [] seed.length rfl
            rw [hre]
            simp only [except_bind_ok, reparsedPrivate]
            refine congrArg Except.ok ?_
            refine congrArg₂ ParsedPrivate.mk ?_ rfl
            simp
    | ecdhX k =>
        rcases hwf with ⟨halgo, hlen⟩ | ⟨halgo, hlen⟩
        · subst halgo
          refine ⟨k ++ [], ?_, ?_⟩
          · exact rfl
          · rw [parsePrivateKeyParams.eq_def]
            rw [if_neg (by decide), if_neg (by decide), if_neg (by decide),
                if_neg (by decide), if_neg (by decide), if_pos (Or.inl rfl)]
            rw [show getCurvePayloadSize pkX25519 = .ok 32 from rfl]
            simp only [except_bind_ok]
            have hre : readExactSubarray (k ++ []) 0 32 = .ok k := by
              rw [show (32 : Nat) = k.length from hlen.symm]
              exact readExact_prefix k [] k.length rfl
            rw [hre]
            simp only [except_bind_ok, reparsedPrivate]
            refine congrArg Except.ok ?_
            refine congrArg₂ ParsedPrivate.mk ?_ rfl
            simp
        · subst halgo
          refine ⟨k ++ [], ?_, ?_⟩
          · exact rfl
          · rw [parsePrivateKeyParams.eq_def]
            rw [if_neg (by decide), if_neg (by decide), if_neg (by decide),
                if_neg (by decide), if_neg (by decide), if_pos (Or.inr rfl)]
            rw [show getCurvePayloadSize pkX448 = .ok 56 from rfl]
            simp only [except_bind_ok]
            have hre : readExactSubarray (k ++ []) 0 56 = .ok k := by
              rw [show (56 : Nat) = k.length from hlen.symm]
              exact readExact_prefix k [] k.length rfl
            rw [hre]
            simp only [except_bind_ok, reparsedPrivate]
            refine congrArg Except.ok ?_
            refine congrArg₂ ParsedPrivate.mk ?_ rfl
            simp
    | symmetric hashSeed keyMaterial =>
        obtain ⟨h32, c, digest, hpub, hcase⟩ := hwf
        subst hpub
        rcases hcase with ⟨halgo, n, hhash, hklen⟩ | ⟨halgo, cp, hcipher, hklen⟩
        · subst halgo
          refine ⟨hashSeed ++ (keyMaterial ++ []), ?_, ?_⟩
          · exact rfl
          · rw [parsePrivateKeyParams.eq_def]
            rw [if_neg (by decide), if_neg (by decide), if_neg (by decide),
                if_neg (by decide), if_neg (by decide), if_neg (by decide),
                if_pos rfl]
            simp only [hhash, except_bind_ok]
            rw [List.take_left' h32, List.drop_left' h32]
            rw [show (keyMaterial ++ [] : Bytes).take n = keyMaterial from by
              rw [show n = keyMaterial.length from hklen.symm]
              exact List.take_left' rfl]
            refine congrArg Except.ok ?_
            refine congrArg₂ ParsedPrivate.mk ?_ rfl
            simp only [List.length_append, List.length_nil, h32, hklen]
            omega
        · subst halgo
          refine ⟨hashSeed ++ (keyMaterial ++ []), ?_, ?_⟩
          · exact rfl
          · rw [parsePrivateKeyParams.eq_def]
            rw [if_neg (by decide), if_neg (by decide), if_neg (by decide),
                if_neg (by decide), if_neg (by decide), if_neg (by decide),
                if_neg (by decide), if_pos rfl]
            simp only [hcipher, except_bind_ok]
            rw [List.take_left' h32, List.drop_left' h32]
            rw [show (keyMaterial ++ [] : Bytes).take cp.keySize = keyMaterial from by
              rw [show cp.keySize = keyMaterial.length from hklen.symm]
              exact List.take_left' rfl]
            refine congrArg Except.ok ?_
            refine congrArg₂ ParsedPrivate.mk ?_ rfl
            simp only [List.length_append, List.length_nil, h32, hklen]
            omega
    | mlkem ecc seed sk =>
        obtain ⟨halgo, hecc, hseed⟩ := hwf
        subst halgo
        refine ⟨ecc ++ (seed ++ []), ?_, ?_⟩
        · exact rfl
        · rw [parsePrivateKeyParams.eq_def]
          rw [if_neg (by decide), if_neg (by decide), if_neg (by decide),
              if_neg (by decide), if_neg (by decide), if_neg (by decide),
              if_neg (by decide), if_neg (by decide), if_pos rfl]
          have hre1 : readExactSubarray (ecc ++ (seed ++ [])) 0 32 = .ok ecc := by
            rw [show (32 : Nat) = ecc.length from hecc.symm]
            exact readExact_prefix ecc (seed ++ []) ecc.length rfl
          have hre2 : readExactSubarray (ecc ++ (seed ++ [])) 32 (32 + 64) = .ok seed := by
            have h := readExact_middle ecc seed [] ecc.length seed.length rfl rfl
            rw [hecc, hseed] at h
            exact h
          rw [hre1]
          simp only [except_bind_ok]
          rw [hre2]
          simp only [except_bind_ok, reparsedPrivate]
          refine congrArg Except.ok ?_
          refine congrArg₂ ParsedPrivate.mk ?_ rfl
          simp only [List.length_append, List.length_nil, hecc, hseed]
    | mldsa ecc seed sk =>
        obtain ⟨halgo, hecc, hseed⟩ := hwf
        subst halgo
        refine ⟨ecc ++ (seed ++ []), ?_, ?_⟩
        · exact rfl
        · rw [parsePrivateKeyParams.eq_def]
          rw [if_neg (by decide), if_neg (by decide), if_neg (by decide),
              if_neg (by decide), if_neg (by decide), if_neg (by decide),
              if_neg (by decide), if_neg (by decide), if_neg (by decide),
              if_pos rfl]
          have hre1 : readExactSubarray (ecc ++ (seed ++ [])) 0 32 = .ok ecc := by
            rw [show (32 : Nat) = ecc.length from hecc.symm]
            exact readExact_prefix ecc (seed ++ []) ecc.length rfl
          have hre2 : readExactSubarray (ecc ++ (seed ++ [])) 32 (32 + 32) = .ok seed := by
            have h := readExact_middle ecc seed [] ecc.length seed.length rfl rfl
            rw [hecc, hseed] at h
            exact h
          rw [hre1]
          simp only [except_bind_ok]
          rw [hre2]
          simp only [except_bind_ok, reparsedPrivate]
          refine congrArg Except.ok ?_
          refine congrArg₂ ParsedPrivate.mk ?_ rfl
          simp only [List.length_append, List.length_nil, hecc, hseed]
  · intro algo pub hwf
    cases pub with
    | rsa n e =>
        obtain ⟨halgo, hn, he⟩ := hwf
        have hna : algo ∉ algosWithNativeRepresentation := by
          rcases halgo with rfl | rfl | rfl <;> decide
        have hex : excludedFields algo = [] := by
          rcases halgo with rfl | rfl | rfl <;> rfl
        have hns := stripLeadingZeros_eq_self n hn.1 hn.2.1
        have hes := stripLeadingZeros_eq_self e he.1 he.2.1
        obtain ⟨hne, hnl, hnr⟩ := mpi_field n (by rw [hns]; exact hn.1) hn.2.2.1 hn.2.2.2
        obtain ⟨hee, hel, her⟩ := mpi_field e (by rw [hes]; exact he.1) he.2.2.1 he.2.2.2
        rw [hns] at hnr hnl
        rw [hes] at her hel
        have hD1 : (mpiEnc n ++ (mpiEnc e ++ [])).drop (n.length + 2)
            = mpiEnc e ++ [] := List.drop_left' hnl
        refine ⟨mpiEnc n ++ (mpiEnc e ++ []), ?_, ?_⟩
        · simp [PublicParams.fields, serializeParams, serializeParam, hna, hex,
            hne, hee, except_bind_ok]
        · rw [parsePublicKeyParams.eq_def]
          rw [if_pos halgo]
          simp only [except_bind_ok, hnr, hD1, her]
          refine congrArg Except.ok ?_
          refine congrArg₂ ParsedPublic.mk ?_ rfl
          simp only [List.length_append, List.length_nil, hnl, hel]
    | dsa p q g y =>
        obtain ⟨halgo, hp, hq, hg, hy⟩ := hwf
        subst halgo
        have hna : pkDsa ∉ algosWithNativeRepresentation := by decide
        have hex : excludedFields pkDsa = [] := rfl
        have hps := stripLeadingZeros_eq_self p hp.1 hp.2.1
        have hqs := stripLeadingZeros_eq_self q hq.1 hq.2.1
        have hgs := stripLeadingZeros_eq_self g hg.1 hg.2.1
        have hys := stripLeadingZeros_eq_self y hy.1 hy.2.1
        obtain ⟨hpe, hpl, hpr⟩ := mpi_field p (by rw [hps]; exact hp.1) hp.2.2.1 hp.2.2.2
        obtain ⟨hqe, hql, hqr⟩ := mpi_field q (by rw [hqs]; exact hq.1) hq.2.2.1 hq.2.2.2
        obtain ⟨hge, hgl, hgr⟩ := mpi_field g (by rw [hgs]; exact hg.1) hg.2.2.1 hg.2.2.2
        obtain ⟨hye, hyl, hyr⟩ := mpi_field y (by rw [hys]; exact hy.1) hy.2.2.1 hy.2.2.2
        rw [hps] at hpr hpl
        rw [hqs] at hqr hql
        rw [hgs] at hgr hgl
        rw [hys] at hyr hyl
        have hD1 : (mpiEnc p ++ (mpiEnc q ++ (mpiEnc g ++ (mpiEnc y ++ [])))).drop
            (p.length + 2) = mpiEnc q ++ (mpiEnc g ++ (mpiEnc y ++ [])) :=
          List.drop_left' hpl
        have hD2 : (mpiEnc p ++ (mpiEnc q ++ (mpiEnc g ++ (mpiEnc y ++ [])))).drop
            (p.length + 2 + (q.length + 2)) = mpiEnc g ++ (mpiEnc y ++ []) := by
          rw [drop_append_add _ _ _ _ hpl, List.drop_left' hql]
        have hD3 : (mpiEnc p ++ (mpiEnc q ++ (mpiEnc g ++ (mpiEnc y ++ [])))).drop
            (p.length + 2 + (q.length + 2) + (g.length + 2)) = mpiEnc y ++ [] := by
          rw [show p.length + 2 + (q.length + 2) + (g.length + 2)
              = p.length + 2 + ((q.length + 2) + (g.length + 2)) from by omega]
          rw [drop_append_add _ _ _ _ hpl, drop_append_add _ _ _ _ hql,
            List.drop_left' hgl]
        refine ⟨mpiEnc p ++ (mpiEnc q ++ (mpiEnc g ++ (mpiEnc y ++ []))), ?_, ?_⟩
        · simp [PublicParams.fields, serializeParams, serializeParam, hna, hex,
            hpe, hqe, hge, hye, except_bind_ok]
        · rw [parsePublicKeyParams.eq_def]
          rw [if_neg (by decide), if_pos rfl]
          simp only [except_bind_ok, hpr, hD1, hqr, hD2, hgr, hD3, hyr]
          refine congrArg Except.ok ?_
          refine congrArg₂ ParsedPublic.mk ?_ rfl
          simp only [List.length_append, List.length_nil, hpl, hql, hgl, hyl]
          omega
    | elgamal p g y =>
        obtain ⟨halgo, hp, hg, hy⟩ := hwf
        subst halgo
        have hna : pkElgamal ∉ algosWithNativeRepresentation := by decide
        have hex : excludedFields pkElgamal = [] := rfl
        have hps := stripLeadingZeros_eq_self p hp.1 hp.2.1
        have hgs := stripLeadingZeros_eq_self g hg.1 hg.2.1
        have hys := stripLeadingZeros_eq_self y hy.1 hy.2.1
        obtain ⟨hpe, hpl, hpr⟩ := mpi_field p (by rw [hps]; exact hp.1) hp.2.2.1 hp.2.2.2
        obtain ⟨hge, hgl, hgr⟩ := mpi_field g (by rw [hgs]; exact hg.1) hg.2.2.1 hg.2.2.2
        obtain ⟨hye, hyl, hyr⟩ := mpi_field y (by rw [hys]; exact hy.1) hy.2.2.1 hy.2.2.2
        rw [hps] at hpr hpl
        rw [hgs] at hgr hgl
        rw [hys] at hyr hyl
        have hD1 : (mpiEnc p ++ (mpiEnc g ++ (mpiEnc y ++ []))).drop
            (p.length + 2) = mpiEnc g ++ (mpiEnc y ++ []) := List.drop_left' hpl
        have hD2 : (mpiEnc p ++ (mpiEnc g ++ (mpiEnc y ++ []))).drop
            (p.length + 2 + (g.length + 2)) = mpiEnc y ++ [] := by
          rw [drop_append_add _ _ _ _ hpl, List.drop_left' hgl]
        refine ⟨mpiEnc p ++ (mpiEnc g ++ (mpiEnc y ++ [])), ?_, ?_⟩
        · simp [PublicParams.fields, serializeParams, serializeParam, hna, hex,
            hpe, hge, hye, except_bind_ok]
        · rw [parsePublicKeyParams.eq_def]
          rw [if_neg (by decide), if_neg (by decide), if_pos rfl]
          simp only [except_bind_ok, hpr, hD1, hgr, hD2, hyr]
          refine congrArg Except.ok ?_
          refine congrArg₂ ParsedPublic.mk ?_ rfl
          simp only [List.length_append, List.length_nil, hpl, hgl, hyl]
          omega
    | ecdsa oid Q =>
        obtain ⟨halgo, hQ⟩ := hwf
        subst halgo
        have hna : pkEcdsa ∉ algosWithNativeRepresentation := by decide
        have hex : excludedFields pkEcdsa = [] := rfl
        have hQs := stripLeadingZeros_eq_self Q hQ.1 hQ.2.1
        obtain ⟨hQe, hQl, hQr⟩ := mpi_field Q (by rw [hQs]; exact hQ.1) hQ.2.2.1 hQ.2.2.2
        rw [hQs] at hQr hQl
        have holen : (oidWrite oid).length = oid.oidBytes.length + 1 := by
          simp [oidWrite]
        refine ⟨oidWrite oid ++ (mpiEnc Q ++ []), ?_, ?_⟩
        · simp [PublicParams.fields, serializeParams, serializeParam, hna, hex,
            hQe, except_bind_ok]
        · rw [parsePublicKeyParams.eq_def]
          rw [if_neg (by decide), if_neg (by decide), if_neg (by decide),
              if_pos rfl]
          rw [oidRead_write]
          simp only [except_bind_ok]
          rw [List.drop_left' holen]
          simp only [except_bind_ok, hQr]
          refine congrArg Except.ok ?_
          refine congrArg₂ ParsedPublic.mk ?_ rfl
          simp only [List.length_append, List.length_nil, holen, hQl]
    | eddsaLegacy oid Q =>
        obtain ⟨halgo, hcurve, hwfQ⟩ := hwf
        subst halgo
        subst hcurve
        have hna : pkEddsaLegacy ∉ algosWithNativeRepresentation := by decide
        have hex : excludedFields pkEddsaLegacy = [] := rfl
        obtain ⟨hstrip, hsize, hbound, hbytes⟩ := hwfQ
        obtain ⟨hQe, hQl, hQr⟩ := mpi_field Q hstrip (by omega) hbytes
        have holen : (oidWrite Curve.ed25519Legacy).length
            = Curve.ed25519Legacy.oidBytes.length + 1 := by
          simp [oidWrite]
        refine ⟨oidWrite Curve.ed25519Legacy ++ (mpiEnc Q ++ []), ?_, ?_⟩
        · simp [PublicParams.fields, serializeParams, serializeParam, hna, hex,
            hQe, except_bind_ok]
        · rw [parsePublicKeyParams.eq_def]
          rw [if_neg (by decide), if_neg (by decide), if_neg (by decide),
              if_neg (by decide), if_pos rfl]
          rw [oidRead_write]
          simp only [except_bind_ok]
          rw [if_neg (by decide)]
          rw [List.drop_left' holen]
          simp only [except_bind_ok, hQr]
          rw [leftPad, if_neg (by
            have h1 := stripLeadingZeros_length_le Q
            omega)]
          simp only [except_bind_ok]
          refine congrArg Except.ok ?_
          refine congrArg₂ ParsedPublic.mk ?_ ?_
          · simp only [List.length_append, List.length_nil, holen, hQl]
          · refine congrArg (PublicParams.eddsaLegacy Curve.ed25519Legacy) ?_
            rw [show 33 - (stripLeadingZeros Q).length
                = Q.length - (stripLeadingZeros Q).length from by omega]
            exact stripLeadingZeros_decomposition Q
    | ecdh oid Q k =>
        obtain ⟨halgo, hQ⟩ := hwf
        subst halgo
        have hna : pkEcdh ∉ algosWithNativeRepresentation := by decide
        have hex : excludedFields pkEcdh = [] := rfl
        have hQs := stripLeadingZeros_eq_self Q hQ.1 hQ.2.1
        obtain ⟨hQe, hQl, hQr⟩ := mpi_field Q (by rw [hQs]; exact hQ.1) hQ.2.2.1 hQ.2.2.2
        rw [hQs] at hQr hQl
        have holen : (oidWrite oid).length = oid.oidBytes.length + 1 := by
          simp [oidWrite]
        have hkdf : kdfParamsRead (KDFParams.write k ++ []) = .ok (k, 4) := rfl
        have hD1 : (oidWrite oid ++ (mpiEnc Q ++ (KDFParams.write k ++ []))).drop
            (oid.oidBytes.length + 1 + (Q.length + 2)) = KDFParams.write k ++ [] := by
          rw [drop_append_add _ _ _ _ holen, List.drop_left' hQl]
        refine ⟨oidWrite oid ++ (mpiEnc Q ++ (KDFParams.write k ++ [])), ?_, ?_⟩
        · simp [PublicParams.fields, serializeParams, serializeParam, hna, hex,
            hQe, except_bind_ok]
        · rw [parsePublicKeyParams.eq_def]
          rw [if_neg (by decide), if_neg (by decide), if_neg (by decide),
              if_neg (by decide), if_neg (by decide), if_pos rfl]
          rw [oidRead_write]
          simp only [except_bind_ok]
          rw [List.drop_left' holen]
          simp only [except_bind_ok, hQr, hD1, hkdf]
          refine congrArg Except.ok ?_
          refine congrArg₂ ParsedPublic.mk ?_ rfl
          simp only [List.length_append, List.length_nil, List.length_cons,
            holen, hQl, KDFParams.write]
          omega
    | eddsa A =>
        rcases hwf with ⟨halgo, hlen⟩ | ⟨halgo, hlen⟩
        · subst halgo
          refine ⟨A ++ [], ?_, ?_⟩
          · exact rfl
          · rw [parsePublicKeyParams.eq_def]
            rw [if_neg (by decide), if_neg (by decide), if_neg (by decide),
                if_neg (by decide), if_neg (by decide), if_neg (by decide),
                if_pos (Or.inl rfl)]
            rw [show getCurvePayloadSize pkEd25519 = .ok 32 from rfl]
            simp only [except_bind_ok]
            have hre : readExactSubarray (A ++ []) 0 32 = .ok A := by
              rw [show (32 : Nat) = A.length from hlen.symm]
              exact readExact_prefix A [] A.length rfl
            rw [hre]
            simp only [except_bind_ok]
            refine congrArg Except.ok ?_
            refine congrArg₂ ParsedPublic.mk ?_ rfl
            simp
        · subst halgo
          refine ⟨A ++ [], ?_, ?_⟩
          · exact rfl
          · rw [parsePublicKeyParams.eq_def]
            rw [if_neg (by decide), if_neg (by decide), if_neg (by decide),
                if_neg (by decide), if_neg (by decide), if_neg (by decide),
                if_pos (Or.inr rfl)]
            rw [show getCurvePayloadSize pkEd448 = .ok 57 from rfl]
            simp only [except_bind_ok]
            have hre : readExactSubarray (A ++ []) 0 57 = .ok A := by
              rw [show (57 : Nat) = A.length from hlen.symm]
              exact readExact_prefix A [] A.length rfl
            rw [hre]
            simp only [except_bind_ok]
            refine congrArg Except.ok ?_
            refine congrArg₂ ParsedPublic.mk ?_ rfl
            simp
    | ecdhX A =>
        rcases hwf with ⟨halgo, hlen⟩ | ⟨halgo, hlen⟩
        · subst halgo
          refine ⟨A ++ [], ?_, ?_⟩
          · exact rfl
          · rw [parsePublicKeyParams.eq_def]
            rw [if_neg (by decide), if_neg (by decide), if_neg (by decide),
                if_neg (by decide), if_neg (by decide), if_neg (by decide),
                if_neg (by decide), if_pos (Or.inl rfl)]
            rw [show getCurvePayloadSize pkX25519 = .ok 32 from rfl]
            simp only [except_bind_ok]
            have hre : readExactSubarray (A ++ []) 0 32 = .ok A := by
              rw [show (32 : Nat) = A.length from hlen.symm]
              exact readExact_prefix A [] A.length rfl
            rw [hre]
            simp only [except_bind_ok]
            refine congrArg Except.ok ?_
            refine congrArg₂ ParsedPublic.mk ?_ rfl
            simp
        · subst halgo
          refine ⟨A ++ [], ?_, ?_⟩
          · exact rfl
          · rw [parsePublicKeyParams.eq_def]
            rw [if_neg (by decide), if_neg (by decide), if_neg (by decide),
                if_neg (by decide), if_neg (by decide), if_neg (by decide),
                if_neg (by decide), if_pos (Or.inr rfl)]
            rw [show getCurvePayloadSize pkX448 = .ok 56 from rfl]
            simp only [except_bind_ok]
            have hre : readExactSubarray (A ++ []) 0 56 = .ok A := by
              rw [show (56 : Nat) = A.length from hlen.symm]
              exact readExact_prefix A [] A.length rfl
            rw [hre]
            simp only [except_bind_ok]
            refine congrArg Except.ok ?_
            refine congrArg₂ ParsedPublic.mk ?_ rfl
            simp
    | symmetric c digest =>
        obtain ⟨halgo, hlen⟩ := hwf
        rcases halgo with rfl | rfl
        · refine ⟨[c] ++ (digest ++ []), ?_, ?_⟩
          · exact rfl
          · rw [parsePublicKeyParams.eq_def]
            rw [if_neg (by decide), if_neg (by decide), if_neg (by decide),
                if_neg (by decide), if_neg (by decide), if_neg (by decide),
                if_neg (by decide), if_neg (by decide), if_pos (Or.inl rfl)]
            simp only [List.cons_append, List.nil_append, List.headD,
              List.drop_succ_cons, List.drop_zero]
            rw [List.take_left' hlen]
            refine congrArg Except.ok ?_
            refine congrArg₂ ParsedPublic.mk ?_ rfl
            simp only [List.length_cons, List.length_append, List.length_nil, hlen]
        · refine ⟨[c] ++ (digest ++ []), ?_, ?_⟩
          · exact rfl
          · rw [parsePublicKeyParams.eq_def]
            rw [if_neg (by decide), if_neg (by decide), if_neg (by decide),
                if_neg (by decide), if_neg (by decide), if_neg (by decide),
                if_neg (by decide), if_neg (by decide), if_pos (Or.inr rfl)]
            simp only [List.cons_append, List.nil_append, List.headD,
              List.drop_succ_cons, List.drop_zero]
            rw [List.take_left' hlen]
            refine congrArg Except.ok ?_
            refine congrArg₂ ParsedPublic.mk ?_ rfl
            simp only [List.length_cons, List.length_append, List.length_nil, hlen]
    | mlkem e m =>
        obtain ⟨halgo, he, hm⟩ := hwf
        subst halgo
        refine ⟨e ++ (m ++ []), ?_, ?_⟩
        · exact rfl
        · rw [parsePublicKeyParams.eq_def]
          rw [if_neg (by decide), if_neg (by decide), if_neg (by decide),
              if_neg (by decide), if_neg (by decide), if_neg (by decide),
              if_neg (by decide), if_neg (by decide), if_neg (by decide),
              if_pos rfl]
          have hre1 : readExactSubarray (e ++ (m ++ [])) 0 32 = .ok e := by
            rw [show (32 : Nat) = e.length from he.symm]
            exact readExact_prefix e (m ++ []) e.length rfl
          have hre2 : readExactSubarray (e ++ (m ++ [])) 32 (32 + 1184) = .ok m := by
            have h := readExact_middle e m [] e.length m.length rfl rfl
            rw [he, hm] at h
            exact h
          rw [hre1]
          simp only [except_bind_ok]
          rw [hre2]
          simp only [except_bind_ok]
          refine congrArg Except.ok ?_
          refine congrArg₂ ParsedPublic.mk ?_ rfl
          simp only [List.length_append, List.length_nil, he, hm]
    | mldsa e m =>
        obtain ⟨halgo, he, hm⟩ := hwf
        subst halgo
        refine ⟨e ++ (m ++ []), ?_, ?_⟩
        · exact rfl
        · rw [parsePublicKeyParams.eq_def]
          rw [if_neg (by decide), if_neg (by decide), if_neg (by decide),
              if_neg (by decide), if_neg (by decide), if_neg (by decide),
              if_neg (by decide), if_neg (by decide), if_neg (by decide),
              if_neg (by decide), if_pos rfl]
          have hre1 : readExactSubarray (e ++ (m ++ [])) 0 32 = .ok e := by
            rw [show (32 : Nat) = e.length from he.symm]
            exact readExact_prefix e (m ++ []) e.length rfl
          have hre2 : readExactSubarray (e ++ (m ++ [])) 32 (32 + 1952) = .ok m := by
            have h := readExact_middle e m [] e.length m.length rfl rfl
            rw [he, hm] at h
            exact h
          rw [hre1]
          simp only [except_bind_ok]
          rw [hre2]
          simp only [except_bind_ok]
          refine congrArg Except.ok ?_
          refine congrArg₂ ParsedPublic.mk ?_ rfl
          simp only [List.length_append, List.length_nil, he, hm]
  · intro ecc seed sk
    simp [PrivateParams.fields, serializeParams, serializeParam,
      excludedFields, algosWithNativeRepresentation, except_bind_ok,
      pkPqcMlkemX25519, pkPqcMldsaEd25519]
  · intro ecc seed sk
    simp [PrivateParams.fields, serializeParams, serializeParam,
      excludedFields, algosWithNativeRepresentation, except_bind_ok,
      pkPqcMlkemX25519, pkPqcMldsaEd25519]


/-- Witness for C4 at a concrete RSA record: single-octet MPIs round-trip. -/
theorem generateParams_serialization_roundtrip_witness :
    ∃ bs, serializeParams pkRsaEncrypt (PrivateParams.rsa [1] [2] [3] [4]).fields =
        .ok bs ∧
      parsePrivateKeyParams id id pkRsaEncrypt bs (PublicParams.rsa [5] [1]) =
        .ok ⟨bs.length, reparsedPrivate id id (PrivateParams.rsa [1] [2] [3] [4])⟩ :=
  (generateParams_serialization_roundtrip id id).1 pkRsaEncrypt
    (PrivateParams.rsa [1] [2] [3] [4]) (PublicParams.rsa [5] [1])
    (by simp [wfPrivateFor, WFMPI])


/-- An S2K specifier's `type` string is `argon2` exactly for the Argon2
class. -/
theorem s2k_typeName_argon2 (s : S2K) : s.typeName = "argon2" ↔ s = .argon2 := by
  cases s <;> simp [S2K.typeName]

/-- An S2K specifier's `type` string is `simple` exactly for the Simple
class. -/
theorem s2k_typeName_simple (s : S2K) : s.typeName = "simple" ↔ s = .simple := by
  cases s <;> simp [S2K.typeName]

/-- **C5**: `produceEncryptionKey` rejects every Argon2 S2K without an AEAD
mode and every Simple S2K with a version-6 key; whenever there is no AEAD
mode, the key version is 5 or the legacy-AEAD flag is set it returns the
raw S2K-derived key of the cipher's key size; and in every other case it
returns `HKDF-SHA-256(derivedKey, salt = "", info = serializedPacketTag ‖
[keyVersion, cipherAlgo, aeadMode], L = keySize)`, of the cipher's key
size (the lengths under the stated primitive length contracts). -/
theorem produceEncryptionKey_gates_and_hkdf
    (produceKey : S2K → String → Nat → Bytes)
    (hkdf : Nat → Bytes → Bytes → Bytes → Nat → Bytes)
    (hpk : ∀ s p n, (produceKey s p n).length = n)
    (hhk : ∀ h k salt i n, (hkdf h k salt i n).length = n) :
    (∀ kv pass cipherAlgo tag leg,
      produceEncryptionKey produceKey hkdf kv .argon2 pass cipherAlgo none tag leg =
        .error "Using Argon2 S2K without AEAD is not allowed") ∧
    (∀ pass cipherAlgo aead tag leg,
      produceEncryptionKey produceKey hkdf 6 .simple pass cipherAlgo aead tag leg =
        .error "Using Simple S2K with version 6 keys is not allowed") ∧
    (∀ kv s2k pass cipherAlgo aead tag leg cp,
      getCipherParams cipherAlgo = .ok cp →
      ¬(s2k = S2K.argon2 ∧ aead = none) →
      ¬(s2k = S2K.simple ∧ kv = 6) →
      (aead = none ∨ kv = 5 ∨ leg = true) →
      produceEncryptionKey produceKey hkdf kv s2k pass cipherAlgo aead tag leg =
        .ok (produceKey s2k pass cp.keySize) ∧
      (produceKey s2k pass cp.keySize).length = cp.keySize) ∧
    (∀ kv s2k pass cipherAlgo m tag cp,
      getCipherParams cipherAlgo = .ok cp →
      ¬(s2k = S2K.simple ∧ kv = 6) →
      kv ≠ 5 →
      produceEncryptionKey produceKey hkdf kv s2k pass cipherAlgo (some m) tag false =
        .ok (hkdf hashSha256 (produceKey s2k pass cp.keySize) []
          (tag ++ [kv, cipherAlgo, m]) cp.keySize) ∧
      (hkdf hashSha256 (produceKey s2k pass cp.keySize) []
          (tag ++ [kv, cipherAlgo, m]) cp.keySize).length = cp.keySize) := by
  refine ⟨?_, ?_, ?_, ?_⟩
  · intro kv pass cipherAlgo tag leg
    rw [produceEncryptionKey, if_pos ⟨rfl, rfl⟩]
  · intro pass cipherAlgo aead tag leg
    rw [produceEncryptionKey, if_neg (by
        rintro ⟨habs, -⟩
        exact absurd ((s2k_typeName_argon2 _).mp habs) (by simp)),
      if_pos ⟨rfl, rfl⟩]
  · intro kv s2k pass cipherAlgo aead tag leg cp hcp hng1 hng2 hsel
    refine ⟨?_, hpk s2k pass cp.keySize⟩
    rw [produceEncryptionKey, if_neg (by
        rintro ⟨ht, hn⟩
        exact hng1 ⟨(s2k_typeName_argon2 _).mp ht, hn⟩),
      if_neg (by
        rintro ⟨ht, hv⟩
        exact hng2 ⟨(s2k_typeName_simple _).mp ht, hv⟩),
      hcp]
    cases aead with
    | none => rfl
    | some m =>
        have hcond : kv = 5 ∨ leg = true := by
          rcases hsel with h | h | h
          · exact absurd h (by simp)
          · exact Or.inl h
          · exact Or.inr h
        simp only [if_pos hcond]
  · intro kv s2k pass cipherAlgo m tag cp hcp hng2 hkv
    refine ⟨?_, hhk _ _ _ _ _⟩
    rw [produceEncryptionKey, if_neg (by rintro ⟨-, habs⟩; exact absurd habs (by simp)),
      if_neg (by
        rintro ⟨ht, hv⟩
        exact hng2 ⟨(s2k_typeName_simple _).mp ht, hv⟩),
      hcp]
    have hcond : ¬(kv = 5 ∨ (false : Bool) = true) := by
      rintro (h | h)
      · exact hkv h
      · exact absurd h (by simp)
    simp only [if_neg hcond]

/-- Witness for C5: with concrete primitives, an Argon2 S2K without AEAD
is rejected. -/
theorem produceEncryptionKey_gates_and_hkdf_witness :
    produceEncryptionKey (fun _ _ n => List.replicate n 0)
      (fun _ _ _ _ n => List.replicate n 1) 4 .argon2 "pw" symAes128 none [] false =
      .error "Using Argon2 S2K without AEAD is not allowed" :=
  (produceEncryptionKey_gates_and_hkdf (fun _ _ n => List.replicate n 0)
    (fun _ _ _ _ n => List.replicate n 1) (by simp) (by simp)).1 4 "pw" symAes128 [] false


/-- Reduction of the signing dispatcher's Ed25519 branch. -/
theorem signDispatch_ed25519 {Sig : Type} (D : SignatureDelegates Sig)
    (hashAlgo : Nat) (pub : PublicParams) (priv : PrivateParams)
    (data hashed : Bytes) :
    signDispatch D pkEd25519 hashAlgo (some pub) (some priv) data hashed =
      match getHashByteLength hashAlgo with
      | .ok hl =>
          if hl < 32 then .error "Hash algorithm too weak for EdDSA."
          else .ok (D.eddsaSign pkEd25519 hashAlgo data pub.A priv.seed hashed)
      | .error e => .error e := by
  cases hh : getHashByteLength hashAlgo with
  | ok hl =>
      rw [signDispatch.eq_def, hh]
      rfl
  | error e =>
      rw [signDispatch.eq_def, hh]
      rfl

/-- Reduction of the signing dispatcher's Ed448 branch. -/
theorem signDispatch_ed448 {Sig : Type} (D : SignatureDelegates Sig)
    (hashAlgo : Nat) (pub : PublicParams) (priv : PrivateParams)
    (data hashed : Bytes) :
    signDispatch D pkEd448 hashAlgo (some pub) (some priv) data hashed =
      match getHashByteLength hashAlgo with
      | .ok hl =>
          if hl < 64 then .error "Hash algorithm too weak for EdDSA."
          else .ok (D.eddsaSign pkEd448 hashAlgo data pub.A priv.seed hashed)
      | .error e => .error e := by
  cases hh : getHashByteLength hashAlgo with
  | ok hl =>
      rw [signDispatch.eq_def, hh]
      rfl
  | error e =>
      rw [signDispatch.eq_def, hh]
      rfl

/-- Reduction of the signing dispatcher's ML-DSA+Ed25519 branch. -/
theorem signDispatch_pqc {Sig : Type} (D : SignatureDelegates Sig)
    (hashAlgo : Nat) (pub : PublicParams) (priv : PrivateParams)
    (data hashed : Bytes) :
    signDispatch D pkPqcMldsaEd25519 hashAlgo (some pub) (some priv) data hashed =
      match getHashByteLength hashAlgo with
      | .ok hl =>
          if decide (32 ≤ hl) = false then
            .error "Unexpected hash algorithm for PQC signature: digest size too short"
          else
            .ok (D.pqcSign pkPqcMldsaEd25519 hashAlgo priv.eccSecretKey
              pub.eccPublicKey priv.mldsaSecretKey hashed)
      | .error e => .error e := by
  cases hh : getHashByteLength hashAlgo with
  | ok hl =>
      rw [signDispatch.eq_def, isCompatibleHashAlgo, hh]
      rfl
  | error e =>
      rw [signDispatch.eq_def, isCompatibleHashAlgo, hh]
      rfl

/-- Reduction of the verification dispatcher's Ed25519 branch. -/
theorem verifyDispatch_ed25519 {Sig : Type} (D : SignatureDelegates Sig)
    (hashAlgo : Nat) (sig : SignatureObject) (pub : PublicParams)
    (priv : Option PrivateParams) (data hashed : Bytes) :
    verifyDispatch D pkEd25519 hashAlgo sig pub priv data hashed =
      match getHashByteLength hashAlgo with
      | .ok hl =>
          if hl < 32 then .error "Hash algorithm too weak for EdDSA."
          else .ok (D.eddsaVerify pkEd25519 hashAlgo sig data pub.A hashed)
      | .error e => .error e := by
  cases hh : getHashByteLength hashAlgo with
  | ok hl =>
      rw [verifyDispatch.eq_def, hh]
      rfl
  | error e =>
      rw [verifyDispatch.eq_def, hh]
      rfl

/-- Reduction of the verification dispatcher's Ed448 branch. -/
theorem verifyDispatch_ed448 {Sig : Type} (D : SignatureDelegates Sig)
    (hashAlgo : Nat) (sig : SignatureObject) (pub : PublicParams)
    (priv : Option PrivateParams) (data hashed : Bytes) :
    verifyDispatch D pkEd448 hashAlgo sig pub priv data hashed =
      match getHashByteLength hashAlgo with
      | .ok hl =>
          if hl < 64 then .error "Hash algorithm too weak for EdDSA."
          else .ok (D.eddsaVerify pkEd448 hashAlgo sig data pub.A hashed)
      | .error e => .error e := by
  cases hh : getHashByteLength hashAlgo with
  | ok hl =>
      rw [verifyDispatch.eq_def, hh]
      rfl
  | error e =>
      rw [verifyDispatch.eq_def, hh]
      rfl

/-- Reduction of the verification dispatcher's ML-DSA+Ed25519 branch. -/
theorem verifyDispatch_pqc {Sig : Type} (D : SignatureDelegates Sig)
    (hashAlgo : Nat) (sig : SignatureObject) (pub : PublicParams)
    (priv : Option PrivateParams) (data hashed : Bytes) :
    verifyDispatch D pkPqcMldsaEd25519 hashAlgo sig pub priv data hashed =
      match getHashByteLength hashAlgo with
      | .ok hl =>
          if decide (32 ≤ hl) = false then
            .error "Unexpected hash algorithm for PQC signature: digest size too short"
          else
            .ok (D.pqcVerify pkPqcMldsaEd25519 hashAlgo pub.eccPublicKey
              pub.mldsaPublicKey hashed sig)
      | .error e => .error e := by
  cases hh : getHashByteLength hashAlgo with
  | ok hl =>
      rw [verifyDispatch.eq_def, isCompatibleHashAlgo, hh]
      rfl
  | error e =>
      rw [verifyDispatch.eq_def, isCompatibleHashAlgo, hh]
      rfl

/-- **C6**: every Ed25519 sign and verify call fails with the hash-too-weak
error whenever the requested hash's digest length is below SHA-256's (32
octets, the preferred hash); every Ed448 call likewise below SHA-512's (64
octets); and every ML-DSA+Ed25519 sign and verify call fails whenever the
requested hash's digest length is below 32 octets. -/
theorem sign_verify_hash_strength_gates {Sig : Type} (D : SignatureDelegates Sig) :
    (∀ hashAlgo hl pub priv sig data hashed,
      getHashByteLength hashAlgo = .ok hl → hl < 32 →
      signDispatch D pkEd25519 hashAlgo (some pub) (some priv) data hashed =
        .error "Hash algorithm too weak for EdDSA." ∧
      verifyDispatch D pkEd25519 hashAlgo sig pub (some priv) data hashed =
        .error "Hash algorithm too weak for EdDSA.") ∧
    (∀ hashAlgo hl pub priv sig data hashed,
      getHashByteLength hashAlgo = .ok hl → hl < 64 →
      signDispatch D pkEd448 hashAlgo (some pub) (some priv) data hashed =
        .error "Hash algorithm too weak for EdDSA." ∧
      verifyDispatch D pkEd448 hashAlgo sig pub (some priv) data hashed =
        .error "Hash algorithm too weak for EdDSA.") ∧
    (∀ hashAlgo hl pub priv sig data hashed,
      getHashByteLength hashAlgo = .ok hl → hl < 32 →
      signDispatch D pkPqcMldsaEd25519 hashAlgo (some pub) (some priv) data hashed =
        .error "Unexpected hash algorithm for PQC signature: digest size too short" ∧
      verifyDispatch D pkPqcMldsaEd25519 hashAlgo sig pub (some priv) data hashed =
        .error "Unexpected hash algorithm for PQC signature: digest size too short") := by
  refine ⟨?_, ?_, ?_⟩
  · intro hashAlgo hl pub priv sig data hashed hhl hlt
    constructor
    · rw [signDispatch_ed25519, hhl]
      simp only [if_pos hlt]
    · rw [verifyDispatch_ed25519, hhl]
      simp only [if_pos hlt]
  · intro hashAlgo hl pub priv sig data hashed hhl hlt
    constructor
    · rw [signDispatch_ed448, hhl]
      simp only [if_pos hlt]
    · rw [verifyDispatch_ed448, hhl]
      simp only [if_pos hlt]
  · intro hashAlgo hl pub priv sig data hashed hhl hlt
    have hdec : decide (32 ≤ hl) = false := decide_eq_false (by omega)
    constructor
    · rw [signDispatch_pqc, hhl]
      simp only [hdec, if_true]
    · rw [verifyDispatch_pqc, hhl]
      simp only [hdec, if_true]

/-- Witness for C6: `sign(Ed25519, SHA-1)` and
`sign(pqc_mldsa_ed25519, SHA-224)` both fail. -/
theorem sign_verify_hash_strength_gates_witness :
    signDispatch trivialDelegates pkEd25519 hashSha1
        (some (PublicParams.eddsa (List.replicate 32 1)))
        (some (PrivateParams.eddsa (List.replicate 32 2))) [] [] =
      .error "Hash algorithm too weak for EdDSA." ∧
    signDispatch trivialDelegates pkPqcMldsaEd25519 hashSha224
        (some (PublicParams.mldsa (List.replicate 32 1) (List.replicate 1952 2)))
        (some (PrivateParams.mldsa (List.replicate 32 3) (List.replicate 32 4)
          (List.replicate 32 5))) [] [] =
      .error "Unexpected hash algorithm for PQC signature: digest size too short" :=
  ⟨((sign_verify_hash_strength_gates trivialDelegates).1 hashSha1 20 _ _
      ⟨[], [], []⟩ [] [] rfl (by decide)).1,
   ((sign_verify_hash_strength_gates trivialDelegates).2.2 hashSha224 28 _ _
      ⟨[], [], []⟩ [] [] rfl (by decide)).1⟩


/-- **C10 (counterexample)**: the zero (plaintext) symmetric-algorithm code
is non-null and not an AES variant, yet `publicKeyEncrypt` for X25519 does
not throw on it: the guard `symmetricAlgo && !util.isAES(symmetricAlgo)`
tests JS truthiness, and 0 is falsy, so the call succeeds and wraps the
cleartext algorithm 0 into the result. -/
theorem x25519_plaintext_algo_not_rejected :
    isAES symPlaintext = false ∧
    publicKeyEncrypt trivialPKPrims pkX25519 (some symPlaintext)
        (PublicParams.ecdhX (List.replicate 32 1)) none [] [] =
      .ok (some (EncSessionKeyParams.ecdhX [] (some symPlaintext) [])) :=
  ⟨rfl, rfl⟩

/-- **C10 (amended)**: for X25519 and X448, `publicKeyEncrypt` throws
whenever a non-null, non-zero symmetric algorithm that is not an AES
variant is passed (the zero plaintext code is falsy in the guard and is
not rejected), and `publicKeyDecrypt` throws whenever the parsed
wrapped-key structure carries a non-null cleartext symmetric algorithm
(zero included) that is not an AES variant. -/
theorem x25519_x448_wrap_aes_only (P : PKCryptoPrims) :
    (∀ keyAlgo a pub priv data fp,
      (keyAlgo = pkX25519 ∨ keyAlgo = pkX448) →
      a ≠ 0 → isAES a = false →
      publicKeyEncrypt P keyAlgo (some a) pub priv data fp =
        .error "X25519 and X448 keys can only encrypt AES session keys") ∧
    (∀ keyAlgo a pub priv eph wk fp rp,
      (keyAlgo = pkX25519 ∨ keyAlgo = pkX448) →
      isAES a = false →
      publicKeyDecrypt P keyAlgo pub priv (.ecdhX eph (some a) wk) fp rp =
        .error "AES session key expected") := by
  constructor
  · intro keyAlgo a pub priv data fp halgo ha hAES
    have hcond : (match (some a : Option Nat) with
        | some a => decide (a ≠ 0) && !isAES a
        | none => false) = true := by
      show (decide (a ≠ 0) && !isAES a) = true
      rw [decide_eq_true ha, hAES]
      rfl
    rcases halgo with rfl | rfl
    · unfold publicKeyEncrypt
      rw [if_neg (by decide), if_neg (by decide), if_neg (by decide),
        if_pos (Or.inl rfl), if_pos hcond]
    · unfold publicKeyEncrypt
      rw [if_neg (by decide), if_neg (by decide), if_neg (by decide),
        if_pos (Or.inr rfl), if_pos hcond]
  · intro keyAlgo a pub priv eph wk fp rp halgo hAES
    have hcond : (match (EncSessionKeyParams.ecdhX eph (some a) wk).cAlgorithm with
        | some a => !isAES a
        | none => false) = true := by
      show (!isAES a) = true
      rw [hAES]
      rfl
    rcases halgo with rfl | rfl
    · unfold publicKeyDecrypt
      rw [if_neg (by decide), if_neg (by decide), if_neg (by decide),
        if_pos (Or.inl rfl), if_pos hcond]
    · unfold publicKeyDecrypt
      rw [if_neg (by decide), if_neg (by decide), if_neg (by decide),
        if_pos (Or.inr rfl), if_pos hcond]

/-- Witness for the amended C10: a TripleDES session-key algorithm is
rejected by the X25519 encrypt path and the X448 decrypt path. -/
theorem x25519_x448_wrap_aes_only_witness :
    publicKeyEncrypt trivialPKPrims pkX25519 (some symTripledes)
        (PublicParams.ecdhX (List.replicate 32 1)) none [] [] =
      .error "X25519 and X448 keys can only encrypt AES session keys" ∧
    publicKeyDecrypt trivialPKPrims pkX448
        (PublicParams.ecdhX (List.replicate 56 1))
        (PrivateParams.ecdhX (List.replicate 56 2))
        (EncSessionKeyParams.ecdhX (List.replicate 56 3) (some symTripledes)
          (List.replicate 24 4)) [] none =
      .error "AES session key expected" :=
  ⟨(x25519_x448_wrap_aes_only trivialPKPrims).1 pkX25519 symTripledes
      (PublicParams.ecdhX (List.replicate 32 1)) none [] [] (Or.inl rfl)
      (by decide) rfl,
   (x25519_x448_wrap_aes_only trivialPKPrims).2 pkX448 symTripledes
      (PublicParams.ecdhX (List.replicate 56 1))
      (PrivateParams.ecdhX (List.replicate 56 2)) (List.replicate 56 3)
      (List.replicate 24 4) [] none (Or.inr rfl) rfl⟩


/-- **C8 (counterexample)**: `makeDummy` on a decrypted packet breaks the
claimed biconditional `isEncrypted ⇔ privateParams == null`: it nulls
`privateParams` but sets `isEncrypted` to `null` (not `true`), so
afterwards the private parameters are null while `isEncrypted` does not
hold. -/
theorem makeDummy_violates_claimed_invariant :
    claimedSecretKeyInvariant sampleDecryptedPacket ∧
    ∃ p', makeDummy sampleDecryptedPacket = .ok p' ∧
      ¬ claimedSecretKeyInvariant p' := by
  refine ⟨by simp [claimedSecretKeyInvariant, sampleDecryptedPacket], _, rfl, ?_⟩
  simp [claimedSecretKeyInvariant, makeDummy, clearPrivateParams,
    SecretKeyPacket.isDummy, SecretKeyPacket.isMissingSecretKeyMaterial,
    sampleDecryptedPacket]

/-- **C8 (amended)**: every Secret-Key packet operation preserves the
invariant that decrypted secret material is present (`privateParams`
non-null) exactly when the packet is in the decrypted state
(`isEncrypted === false`) with no unparseable key material; `read`
establishes it unconditionally and `generate` on a packet without
unparseable material does too. The claim's literal biconditional
`isEncrypted ⇔ privateParams == null` is not an invariant: `makeDummy`
leaves `isEncrypted = null` with null `privateParams`. -/
theorem secret_key_ops_preserve_material_invariant (C : SecretKeyCrypto)
    (readS2K : Bytes → Except String (S2K × Nat)) :
    (∀ flag version algorithm pub bytes p',
      secretKeyRead readS2K C.expandMlkemSeed C.expandMldsaSeed flag version
          algorithm pub bytes = .ok p' →
      secretKeyInvariant p') ∧
    (∀ p curve priv pub p', p.unparseableKeyMaterial = none →
      secretKeyGenerate p curve priv pub = .ok p' → secretKeyInvariant p') ∧
    (∀ p pass p', secretKeyInvariant p →
      secretKeyEncrypt C p pass = .ok p' → secretKeyInvariant p') ∧
    (∀ p pass p', secretKeyInvariant p →
      secretKeyDecrypt C p pass = .ok p' → secretKeyInvariant p') ∧
    (∀ p p', secretKeyInvariant p → makeDummy p = .ok p' →
      secretKeyInvariant p') ∧
    (∀ p p', secretKeyInvariant p → clearPrivateParams p = .ok p' →
      secretKeyInvariant p') := by
  refine ⟨?_, ?_, ?_, ?_, ?_, ?_⟩
  · intro flag version algorithm pub bytes p' h
    simp only [secretKeyRead] at h
    repeat' split at h
    all_goals first
      | exact Except.noConfusion h
      | (injection h with h; subst h; simp [secretKeyInvariant])
  · intro p curve priv pub p' hun h
    simp only [secretKeyGenerate] at h
    repeat' split at h
    all_goals first
      | exact Except.noConfusion h
      | (injection h with h; subst h; simp [secretKeyInvariant, hun])
  · intro p pass p' hInv h
    simp only [secretKeyEncrypt] at h
    repeat' split at h
    all_goals first
      | exact Except.noConfusion h
      | (injection h with h; subst h; simp_all [secretKeyInvariant])
  · intro p pass p' hInv h
    simp only [secretKeyDecrypt] at h
    repeat' split at h
    all_goals first
      | exact Except.noConfusion h
      | (injection h with h; subst h; simp_all [secretKeyInvariant])
  · intro p p' hInv h
    rw [makeDummy] at h
    split at h
    · injection h with h
      subst h
      exact hInv
    · next hd =>
      cases hc : (if p.isEncrypted = some false then clearPrivateParams p
          else Except.ok p) with
      | error e =>
          rw [hc] at h
          exact Except.noConfusion h
      | ok p1 =>
          rw [hc] at h
          injection h with h
          subst h
          have hp1 : p1.privateParams = none := by
            by_cases he : p.isEncrypted = some false
            · rw [if_pos he, clearPrivateParams] at hc
              split at hc
              · next hm =>
                injection hc with hc
                subst hc
                have hun : p.unparseableKeyMaterial ≠ none := by
                  simp only [SecretKeyPacket.isMissingSecretKeyMaterial,
                    Bool.or_eq_true] at hm
                  rcases hm with hm | hm
                  · simpa using hm
                  · exact absurd hm (by simpa using hd)
                by_contra hne
                exact hun (hInv.mpr hne).2
              · split at hc
                · exact Except.noConfusion hc
                · injection hc with hc
                  subst hc
                  rfl
            · rw [if_neg he] at hc
              injection hc with hc
              subst hc
              by_contra hne
              exact he (hInv.mpr hne).1
          simp [secretKeyInvariant, hp1]
  · intro p p' hInv h
    simp only [clearPrivateParams,
      SecretKeyPacket.isMissingSecretKeyMaterial] at h
    repeat' split at h
    all_goals first
      | exact Except.noConfusion h
      | (injection h with h; subst h; simp_all [secretKeyInvariant])

/-- Witness for the amended C8: generating into a fresh v6 Ed25519 packet
yields a state satisfying the invariant. -/
theorem secret_key_ops_preserve_material_invariant_witness :
    ∃ p', secretKeyGenerate sampleFreshPacket none
        (PrivateParams.eddsa (List.replicate 32 2))
        (PublicParams.eddsa (List.replicate 32 1)) = .ok p' ∧
      secretKeyInvariant p' :=
  ⟨_, rfl,
    (secret_key_ops_preserve_material_invariant trivialSecretKeyCrypto
        (fun _ => .error "unsupported S2K type")).2.1
      sampleFreshPacket none (PrivateParams.eddsa (List.replicate 32 2))
      (PublicParams.eddsa (List.replicate 32 1)) _ rfl rfl⟩

end OpenPGP
